import Mathlib

/-
  Verification of the Clean DDD project-template generator
  (src/templates/project_template.py).

  The filesystem is shallowly embedded as a partial map from paths
  (lists of path components) to entries (directory, or file with text
  content).  Python exceptions are modelled by a state-carrying
  `Except FS FS`: `Except.error fs` means an exception was raised with
  the filesystem in state `fs`.  Python's `str.format` is modelled by
  an explicit parser into literal/field pieces followed by substitution.
  The project name handed to the CLI is modelled as a single relative
  path component (the generator's intended domain of directory names).
-/

set_option maxRecDepth 100000

namespace DDDGen

/-! ## Filesystem model -/

abbrev Path := List String

inductive FsEntry where
  | dirE : FsEntry
  | fileE : String → FsEntry
deriving DecidableEq

/-- Filesystem state: a partial map from paths to entries.  The empty
path denotes the current working directory, which always exists. -/
abbrev FS := Path → Option FsEntry

def emptyFS : FS := fun _ => none

def fsUpdate (p : Path) (e : FsEntry) (fs : FS) : FS :=
  fun q => if q = p then some e else fs q

/-- Result of a fallible filesystem operation; an `Except.error`
carries the filesystem state at the moment the exception was raised. -/
def stateOf : Except FS FS → FS
  | .ok fs => fs
  | .error fs => fs

def parentPath (p : Path) : Path := p.dropLast

/-- Model of `Path.exists()`: the empty path (cwd) always exists. -/
def pathExists (fs : FS) (p : Path) : Bool :=
  p.isEmpty || (fs p).isSome

/-- True when `p` denotes an existing directory (the cwd always is). -/
def isDir (fs : FS) (p : Path) : Bool :=
  p.isEmpty || (fs p == some FsEntry.dirE)

/-- Model of `Path.mkdir(parents=True, exist_ok=True)`: ok if `p` is
already a directory, error if it exists as a file, otherwise create the
missing ancestors and then `p` itself. -/
def mkdirPAux : Nat → Path → FS → Except FS FS
  | 0, _, fs => .ok fs
  | fuel + 1, p, fs =>
    if isDir fs p then .ok fs
    else if (fs p).isSome then .error fs
    else
      match mkdirPAux fuel (parentPath p) fs with
      | .error fs₁ => .error fs₁
      | .ok fs₁ => .ok (fsUpdate p FsEntry.dirE fs₁)

/-- The recursion into the parent consumes one list element per step, so
`p.length` steps always suffice; the zero-fuel case is exactly the empty
path (the cwd, which exists). -/
def mkdirP (p : Path) (fs : FS) : Except FS FS := mkdirPAux p.length p fs

theorem mkdirP_cons_unfold (a : String) (as : Path) (fs : FS) :
    mkdirP (a :: as) fs =
      if isDir fs (a :: as) then .ok fs
      else if (fs (a :: as)).isSome then .error fs
      else
        match mkdirP (parentPath (a :: as)) fs with
        | .error fs₁ => .error fs₁
        | .ok fs₁ => .ok (fsUpdate (a :: as) FsEntry.dirE fs₁) := by
  have hlen : (parentPath (a :: as)).length = as.length := by
    simp [parentPath]
  rw [show mkdirP (a :: as) fs = mkdirPAux (as.length + 1) (a :: as) fs from rfl]
  rw [show mkdirPAux (as.length + 1) (a :: as) fs
      = (if isDir fs (a :: as) then .ok fs
         else if (fs (a :: as)).isSome then .error fs
         else
           match mkdirPAux as.length (parentPath (a :: as)) fs with
           | .error fs₁ => .error fs₁
           | .ok fs₁ => .ok (fsUpdate (a :: as) FsEntry.dirE fs₁)) from rfl]
  rw [← hlen]
  rfl

/-- Model of `Path.mkdir()` (no parents, no exist_ok): error if the
target exists or its parent is not a directory. -/
def mkdirSimple (p : Path) (fs : FS) : Except FS FS :=
  if pathExists fs p then .error fs
  else if isDir fs (parentPath p) then .ok (fsUpdate p FsEntry.dirE fs)
  else .error fs

/-- Model of `Path.mkdir(exist_ok=True)` (no parents): ok if the target
is already a directory, error if it exists as a file or the parent is
not a directory. -/
def mkdirExistOk (p : Path) (fs : FS) : Except FS FS :=
  if isDir fs p then .ok fs
  else if (fs p).isSome then .error fs
  else if isDir fs (parentPath p) then .ok (fsUpdate p FsEntry.dirE fs)
  else .error fs

/-- Model of `Path.write_text(content)`: error if the target is an
existing directory or the parent is not a directory; otherwise the file
is created or overwritten with `content`. -/
def write_text (p : Path) (content : String) (fs : FS) : Except FS FS :=
  if fs p == some FsEntry.dirE then .error fs
  else if isDir fs (parentPath p) then .ok (fsUpdate p (FsEntry.fileE content) fs)
  else .error fs

/-- Model of `shutil.rmtree`: remove a path and everything below it. -/
def rmtree (p : Path) (fs : FS) : FS :=
  fun q => if p.isPrefixOf q then none else fs q

/-! ## Python string helpers -/

def lbrace : Char := Char.ofNat 123
def rbrace : Char := Char.ofNat 125

/-- Truthiness of Python `content.strip()`: true iff the string has a
character that is not Python whitespace. -/
def pyNonBlank (s : String) : Bool :=
  s.data.any (fun c =>
    !(c == ' ' || c == '\t' || c == '\n' || c == '\r' || c == '\x0b' || c == '\x0c'))

/-- Model of Python `str.lower()` (ASCII case folding suffices for the
entity names substituted here). -/
def pyLower (s : String) : String := String.mk (s.data.map Char.toLower)

/-! ## Python `str.format` model -/

/-- Parsed piece of a format string: a literal run of characters or a
replacement field `\x7bname\x7d`. -/
inductive FmtPiece where
  | lit : List Char → FmtPiece
  | fieldP : List Char → FmtPiece
deriving DecidableEq

/-- Prepend one literal character, merging into a leading literal piece. -/
def consLit (c : Char) : List FmtPiece → List FmtPiece
  | .lit l :: rest => .lit (c :: l) :: rest
  | ps => .lit [c] :: ps

/-- Split a character list at the first closing brace; `none` when the
field is never closed. -/
def splitAtRbrace : List Char → Option (List Char × List Char)
  | [] => none
  | c :: rest =>
    if c = rbrace then some ([], rest)
    else (splitAtRbrace rest).map (fun pr => (c :: pr.1, pr.2))

/-- Parse a Python format string: `\x7b\x7b` and `\x7d\x7d` are escaped
braces, `\x7bname\x7d` is a replacement field, a lone closing brace or an
unterminated field is an error (`none`).  Every recursive call consumes
at least one character, so fuel equal to the input length suffices. -/
def parseFmtAux : Nat → List Char → Option (List FmtPiece)
  | _, [] => some []
  | 0, _ :: _ => none
  | fuel + 1, c :: rest =>
    if c = lbrace then
      match rest with
      | [] => none
      | c2 :: rest2 =>
        if c2 = lbrace then (parseFmtAux fuel rest2).map (consLit lbrace)
        else
          match splitAtRbrace (c2 :: rest2) with
          | none => none
          | some (nm, rest') =>
            (parseFmtAux fuel rest').map (fun ps => .fieldP nm :: ps)
    else if c = rbrace then
      match rest with
      | [] => none
      | c2 :: rest2 =>
        if c2 = rbrace then (parseFmtAux fuel rest2).map (consLit rbrace) else none
    else (parseFmtAux fuel rest).map (consLit c)

def parseFmt (l : List Char) : Option (List FmtPiece) := parseFmtAux l.length l

/-- Substitution context: keyword arguments of `str.format`. -/
abbrev Ctx := List (List Char × String)

def ctxLookup (ctx : Ctx) (nm : List Char) : Option String :=
  match ctx with
  | [] => none
  | (k, v) :: rest => if nm = k then some v else ctxLookup rest nm

/-- Substitute the parsed pieces; a field missing from the context is a
`KeyError` (`none`). -/
def renderPieces (ctx : Ctx) : List FmtPiece → Option (List Char)
  | [] => some []
  | .lit l :: rest => (renderPieces ctx rest).map (fun out => l ++ out)
  | .fieldP nm :: rest =>
    match ctxLookup ctx nm, renderPieces ctx rest with
    | some v, some out => some (v.data ++ out)
    | _, _ => none

/-- Model of `template.format(**ctx)`. -/
def pyFormat (tmpl : String) (ctx : Ctx) : Option String :=
  (parseFmt tmpl.data).bind (fun ps => (renderPieces ctx ps).map String.mk)

/-! ## The structure specification (PROJECT_STRUCTURE) -/

mutual
inductive PNode where
  | dir : PStruct → PNode
  | file : String → PNode
inductive PStruct where
  | nil : PStruct
  | cons : String → PNode → PStruct → PStruct
end

def PStruct.ofList : List (String × PNode) → PStruct
  | [] => .nil
  | (name, node) :: rest => .cons name node (PStruct.ofList rest)

def initMarker : PNode := .file ("")

def PROJECT_STRUCTURE : PStruct := PStruct.ofList [
  ("src", .dir (PStruct.ofList [
    ("__init__.py", initMarker),
    ("domain", .dir (PStruct.ofList [
      ("__init__.py", initMarker),
      ("entities", .dir (PStruct.ofList [("__init__.py", initMarker)])),
      ("value_objects", .dir (PStruct.ofList [("__init__.py", initMarker)])),
      ("aggregates", .dir (PStruct.ofList [("__init__.py", initMarker)])),
      ("events", .dir (PStruct.ofList [("__init__.py", initMarker)])),
      ("repositories", .dir (PStruct.ofList [("__init__.py", initMarker)])),
      ("services", .dir (PStruct.ofList [("__init__.py", initMarker)]))])),
    ("application", .dir (PStruct.ofList [
      ("__init__.py", initMarker),
      ("commands", .dir (PStruct.ofList [("__init__.py", initMarker)])),
      ("queries", .dir (PStruct.ofList [("__init__.py", initMarker)])),
      ("handlers", .dir (PStruct.ofList [("__init__.py", initMarker)])),
      ("services", .dir (PStruct.ofList [("__init__.py", initMarker)])),
      ("dtos", .dir (PStruct.ofList [("__init__.py", initMarker)]))])),
    ("infrastructure", .dir (PStruct.ofList [
      ("__init__.py", initMarker),
      ("persistence", .dir (PStruct.ofList [("__init__.py", initMarker)])),
      ("repositories", .dir (PStruct.ofList [("__init__.py", initMarker)])),
      ("messaging", .dir (PStruct.ofList [("__init__.py", initMarker)])),
      ("external_services", .dir (PStruct.ofList [("__init__.py", initMarker)]))])),
    ("presentation", .dir (PStruct.ofList [
      ("__init__.py", initMarker),
      ("api", .dir (PStruct.ofList [("__init__.py", initMarker)])),
      ("cli", .dir (PStruct.ofList [("__init__.py", initMarker)])),
      ("web", .dir (PStruct.ofList [("__init__.py", initMarker)]))]))])),
  ("tests", .dir (PStruct.ofList [
    ("__init__.py", initMarker),
    ("unit", .dir (PStruct.ofList [
      ("__init__.py", initMarker),
      ("domain", .dir (PStruct.ofList [("__init__.py", initMarker)])),
      ("application", .dir (PStruct.ofList [("__init__.py", initMarker)]))])),
    ("integration", .dir (PStruct.ofList [("__init__.py", initMarker)])),
    ("e2e", .dir (PStruct.ofList [("__init__.py", initMarker)]))])),
  ("docs", .dir (PStruct.ofList [
    ("README.md", .file ("# 项目文档\n\n请在此处添加项目特定的文档。\n"))]))]

/-! ## The template catalog (TEMPLATES) -/

def entityTemplate : String := "\"\"\"\n领域实体模板\n\"\"\"\nfrom dataclasses import dataclass\n\n\n@dataclass\nclass \x7bentity_name\x7d:\n    \"\"\"\n    \x7bentity_name\x7d 聚合根\n\n    业务规则：\n    - 在此处描述主要业务规则\n    - 列出不变式条件\n    \"\"\"\n    id: str\n    # 添加其他属性\n\n    def __post_init__(self):\n        \"\"\"验证业务不变式\"\"\"\n        if not self.id:\n            raise ValueError(\"ID cannot be empty\")\n\n    def business_operation(self) -> None:\n        \"\"\"描述业务操作\"\"\"\n        # 实现业务逻辑\n        pass\n"

def repositoryTemplate : String := "\"\"\"\n仓储接口模板\n\"\"\"\nfrom abc import ABC, abstractmethod\nfrom typing import Optional, List\nfrom .\x7bentity_name_lower\x7d import \x7bentity_name\x7d\n\n\nclass \x7bentity_name\x7dRepository(ABC):\n    \"\"\"\n    \x7bentity_name\x7d仓储抽象接口\n    定义数据访问合约\n    \"\"\"\n\n    @abstractmethod\n    def save(self, \x7bentity_name_lower\x7d: \x7bentity_name\x7d) -> None:\n        \"\"\"保存\x7bentity_name_lower\x7d\"\"\"\n        pass\n\n    @abstractmethod\n    def find_by_id(\n        self, \x7bentity_name_lower\x7d_id: str\n    ) -> Optional[\x7bentity_name\x7d]:\n        \"\"\"通过ID查找\x7bentity_name_lower\x7d\"\"\"\n        pass\n\n    @abstractmethod\n    def find_all(self) -> List[\x7bentity_name\x7d]:\n        \"\"\"查找所有\x7bentity_name_lower\x7d\"\"\"\n        pass\n\n    @abstractmethod\n    def delete(self, \x7bentity_name_lower\x7d_id: str) -> bool:\n        \"\"\"删除\x7bentity_name_lower\x7d\"\"\"\n        pass\n"

def pyprojectTemplate : String := "[build-system]\nrequires = [\"setuptools>=45\", \"wheel\"]\nbuild-backend = \"setuptools.build_meta\"\n\n[project]\nname = \"\x7bproject_name\x7d\"\nversion = \"0.1.0\"\ndescription = \"Clean DDD Python项目\"\nauthors = [\n    \x7b\x7bname = \"Your Name\", email = \"your.email@example.com\"\x7d\x7d,\n]\ndependencies = [\n    \"dataclasses-json>=0.5.7\",\n    \"pydantic>=1.10.0\",\n]\n\n[project.optional-dependencies]\ndev = [\n    \"pytest>=7.0.0\",\n    \"pytest-cov>=4.0.0\",\n    \"mypy>=1.0.0\",\n    \"ruff>=0.1.0\",\n]\n\n[tool.pytest.ini_options]\ntestpaths = [\"tests\"]\npython_files = [\"test_*.py\"]\npython_classes = [\"Test*\"]\npython_functions = [\"test_*\"]\naddopts = \"--cov=src --cov-report=html --cov-report=term-missing\"\n\n[tool.ruff]\ntarget-version = \"py38\"\nline-length = 88\nselect = [\"E\", \"W\", \"F\", \"I\", \"B\", \"C4\", \"UP\"]\nignore = [\"E501\", \"B008\"]\n\n[tool.ruff.per-file-ignores]\n\"__init__.py\" = [\"F401\"]\n\"tests/*\" = [\"B011\"]\n"

def readmeTemplate : String := "# \x7bproject_name\x7d\n\n基于Clean DDD架构的Python项目\n\n## 项目结构\n\n```\nsrc/\n├── domain/          # 领域层 - 业务逻辑核心\n├── application/     # 应用层 - 用例编排\n├── infrastructure/  # 基础设施层 - 技术实现\n└── presentation/    # 表现层 - 外部接口\n```\n\n## 快速开始\n\n1. 安装依赖:\n```bash\npip install -e .\npip install -e \".[dev]\"\n```\n\n2. 运行测试:\n```bash\npytest\n```\n\n## 开发指南\n\n遵循Clean DDD原则：\n- 依赖指向内层 (Presentation → Application → Domain)\n- 领域层保持纯净，无外部依赖\n- 通过接口实现依赖倒置\n- 关注点明确分离\n"

def TEMPLATES : List (String × String) := [
  ("entity_template.py", entityTemplate),
  ("repository_interface_template.py", repositoryTemplate),
  ("pyproject.toml", pyprojectTemplate),
  ("README.md", readmeTemplate)]

/-- Model of the Python dict access `TEMPLATES[file_name]`. -/
def lookupTemplate (name : String) : Option String :=
  (TEMPLATES.find? (fun pr => pr.1 == name)).map Prod.snd

/-! ## The generator -/

/-- File branch of `create_directory_structure`: ensure the parent
directory exists, then write the content unless the target already
exists and the content strips to nothing. -/
def materializeFile (p : Path) (content : String) (fs : FS) : Except FS FS :=
  match mkdirP (parentPath p) fs with
  | .error fs₁ => .error fs₁
  | .ok fs₁ =>
    if !(pathExists fs₁ p) || pyNonBlank content then write_text p content fs₁
    else .ok fs₁

mutual
/-- Model of `create_directory_structure(base_path, structure)`. -/
def create_directory_structure (base : Path) (st : PStruct) (fs : FS) : Except FS FS :=
  match st with
  | .nil => .ok fs
  | .cons name node rest =>
    match createNode (base ++ [name]) node fs with
    | .error fsE => .error fsE
    | .ok fs₁ => create_directory_structure base rest fs₁

/-- One entry of the structure walk: a directory is created (with
parents, idempotently) and recursed into; a file goes through
`materializeFile`. -/
def createNode (p : Path) (node : PNode) (fs : FS) : Except FS FS :=
  match node with
  | .dir children =>
    match mkdirP p fs with
    | .error fsE => .error fsE
    | .ok fs₁ => create_directory_structure p children fs₁
  | .file content => materializeFile p content fs
end

/-- Keyword arguments of the `.format` call inside
`generate_template_files` (in source order). -/
def ctxGenerate (entity_name project_name : String) : Ctx :=
  [(("entity_name").data, entity_name),
   (("entity_name_lower").data, pyLower entity_name),
   (("project_name").data, project_name)]

/-- Keyword arguments of the `.format` call in `main`'s root-file loop
(in source order). -/
def ctxRoot (entity_name project_name : String) : Ctx :=
  [(("project_name").data, project_name),
   (("entity_name").data, entity_name),
   (("entity_name_lower").data, pyLower entity_name)]

/-- Loop body of `generate_template_files`: render each catalog entry
and write it under the templates directory. -/
def writeTemplates (dir : Path) (ctx : Ctx) :
    List (String × String) → FS → Except FS FS
  | [], fs => .ok fs
  | (name, tmpl) :: rest, fs =>
    match pyFormat tmpl ctx with
    | none => .error fs
    | some content =>
      match write_text (dir ++ [name]) content fs with
      | .error fsE => .error fsE
      | .ok fs₁ => writeTemplates dir ctx rest fs₁

/-- Model of `generate_template_files(project_path, entity_name,
project_name)`. -/
def generate_template_files (project_path : Path)
    (entity_name project_name : String) (fs : FS) : Except FS FS :=
  match mkdirExistOk (project_path ++ ["templates"]) fs with
  | .error fsE => .error fsE
  | .ok fs₁ =>
    writeTemplates (project_path ++ ["templates"])
      (ctxGenerate entity_name project_name) TEMPLATES fs₁

/-- Root-file loop of `main`: look up the named template in the catalog,
render it, and write it directly under the project root. -/
def writeRootFiles (project_path : Path) (ctx : Ctx) :
    List String → FS → Except FS FS
  | [], fs => .ok fs
  | name :: rest, fs =>
    match lookupTemplate name with
    | none => .error fs
    | some tmpl =>
      match pyFormat tmpl ctx with
      | none => .error fs
      | some content =>
        match write_text (project_path ++ [name]) content fs with
        | .error fsE => .error fsE
        | .ok fs₁ => writeRootFiles project_path ctx rest fs₁

/-- Body of `main`'s `try` block: materialize the structure, generate
the template files, then write the two root-level files. -/
def tryBlock (project_path : Path) (entity_name project_name : String)
    (fs : FS) : Except FS FS :=
  match create_directory_structure project_path PROJECT_STRUCTURE fs with
  | .error fsE => .error fsE
  | .ok fs₁ =>
    match generate_template_files project_path entity_name project_name fs₁ with
    | .error fsE => .error fsE
    | .ok fs₂ =>
      writeRootFiles project_path (ctxRoot entity_name project_name)
        [("pyproject.toml"), ("README.md")] fs₂

/-- Model of `main()`: takes `sys.argv` (program name first) and the
initial filesystem, returns the exit code and the final filesystem.
An uncaught exception terminates the interpreter with exit code 1. -/
def pyMain (argv : List String) (fs : FS) : Nat × FS :=
  match argv with
  | [_, project_name, entity_name] =>
    let project_path : Path := [project_name]
    if pathExists fs project_path then (1, fs)
    else
      match mkdirSimple project_path fs with
      | .error fsE => (1, fsE)
      | .ok fs₁ =>
        match tryBlock project_path entity_name project_name fs₁ with
        | .ok fs₂ => (0, fs₂)
        | .error fsE =>
          (1, if pathExists fsE project_path then rmtree project_path fsE else fsE)
  | _ => (1, fs)

/-! ## Flattening the structure specification -/

mutual
/-- All (path, entry) pairs the structure specification describes below
a base directory, in processing order. -/
def flattenS (base : Path) : PStruct → List (Path × FsEntry)
  | .nil => []
  | .cons name node rest => flattenN (base ++ [name]) node ++ flattenS base rest

/-- Pairs contributed by one node rooted at `p`. -/
def flattenN (p : Path) : PNode → List (Path × FsEntry)
  | .dir children => (p, FsEntry.dirE) :: flattenS p children
  | .file c => [(p, FsEntry.fileE c)]
end

def topNames : PStruct → List String
  | .nil => []
  | .cons name _ rest => name :: topNames rest

mutual
/-- Sibling names are distinct at every level (true of a Python dict
literal by construction). -/
def nodupS : PStruct → Bool
  | .nil => true
  | .cons name node rest =>
    !((topNames rest).contains name) && nodupN node && nodupS rest

def nodupN : PNode → Bool
  | .dir children => nodupS children
  | .file _ => true
end

/-- Apply a list of writes to a filesystem, in order. -/
def applyW (l : List (Path × FsEntry)) (fs : FS) : FS :=
  l.foldl (fun f pe => fsUpdate pe.1 pe.2 f) fs

/-! ## Basic lemmas -/

theorem fsUpdate_apply (p : Path) (e : FsEntry) (fs : FS) (q : Path) :
    fsUpdate p e fs q = if q = p then some e else fs q := rfl

theorem fsUpdate_self (p : Path) (e : FsEntry) (fs : FS) :
    fsUpdate p e fs p = some e := by simp [fsUpdate]

theorem fsUpdate_ne {q p : Path} (e : FsEntry) (fs : FS) (h : q ≠ p) :
    fsUpdate p e fs q = fs q := by simp [fsUpdate, h]

theorem fsUpdate_eq_self {p : Path} {e : FsEntry} {fs : FS}
    (h : fs p = some e) : fsUpdate p e fs = fs := by
  funext q
  by_cases hq : q = p
  · simp [fsUpdate, hq, h]
  · simp [fsUpdate, hq]

theorem isDir_congr {fs fs' : FS} {p : Path} (h : fs' p = fs p) :
    isDir fs' p = isDir fs p := by simp [isDir, h]

theorem isDir_of_lookup {fs : FS} {p : Path}
    (h : fs p = some FsEntry.dirE) : isDir fs p = true := by
  simp [isDir, h]

theorem isDir_update_self (p : Path) (fs : FS) :
    isDir (fsUpdate p FsEntry.dirE fs) p = true :=
  isDir_of_lookup (fsUpdate_self ..)

theorem parentPath_concat (b : Path) (x : String) :
    parentPath (b ++ [x]) = b := by simp [parentPath]

theorem ne_append_cons (b : Path) (nm : String) (t : Path) :
    b ≠ b ++ nm :: t := by
  intro h
  have := congrArg List.length h
  simp at this

theorem ne_of_length_ne {l₁ l₂ : Path} (h : l₁.length ≠ l₂.length) :
    l₁ ≠ l₂ := fun he => h (he ▸ rfl)

theorem append_cons_inj {b : Path} {x y : String} {t t' : Path}
    (h : b ++ x :: t = b ++ y :: t') : x = y ∧ t = t' := by
  have h2 := List.append_cancel_left h
  exact ⟨by injection h2, by injection h2⟩

theorem applyW_nil (fs : FS) : applyW [] fs = fs := rfl

theorem applyW_cons (p : Path) (e : FsEntry) (l : List (Path × FsEntry)) (fs : FS) :
    applyW ((p, e) :: l) fs = applyW l (fsUpdate p e fs) := rfl

theorem applyW_append (l₁ l₂ : List (Path × FsEntry)) (fs : FS) :
    applyW (l₁ ++ l₂) fs = applyW l₂ (applyW l₁ fs) := by
  simp [applyW, List.foldl_append]

theorem applyW_frame {l : List (Path × FsEntry)} {fs : FS} {q : Path}
    (hq : q ∉ l.map Prod.fst) : applyW l fs q = fs q := by
  induction l generalizing fs with
  | nil => rfl
  | cons pe rest ih =>
    have hqr : q ∉ rest.map Prod.fst := fun h =>
      hq (by rw [List.map_cons]; exact List.mem_cons.mpr (Or.inr h))
    have hqp : q ≠ pe.1 := fun h =>
      hq (by rw [List.map_cons]; exact List.mem_cons.mpr (Or.inl h))
    rw [show applyW (pe :: rest) fs = applyW rest (fsUpdate pe.1 pe.2 fs) from rfl,
      ih hqr, fsUpdate_ne _ _ hqp]

theorem applyW_mem {l : List (Path × FsEntry)} {fs : FS} {q : Path}
    (hq : q ∈ l.map Prod.fst) : ∃ e, applyW l fs q = some e := by
  induction l generalizing fs with
  | nil => simp at hq
  | cons pe rest ih =>
    rw [show applyW (pe :: rest) fs = applyW rest (fsUpdate pe.1 pe.2 fs) from rfl]
    by_cases hmem : q ∈ rest.map Prod.fst
    · exact ih hmem
    · have hqp : q = pe.1 := by
        rcases List.mem_map.mp hq with ⟨pe', hpe', hfst⟩
        rcases List.mem_cons.mp hpe' with h | h
        · rw [← hfst, h]
        · exact absurd (List.mem_map.mpr ⟨pe', h, hfst⟩) hmem
      refine ⟨pe.2, ?_⟩
      rw [applyW_frame hmem, hqp, fsUpdate_self]

/-! ## Shape lemmas for the flattened specification -/

mutual
theorem flattenS_shape (base : Path) (st : PStruct) :
    ∀ pe ∈ flattenS base st, ∃ nm t, nm ∈ topNames st ∧ pe.1 = base ++ nm :: t := by
  cases st with
  | nil => intro pe hpe; simp [flattenS] at hpe
  | cons name node rest =>
    intro pe hpe
    rcases List.mem_append.mp hpe with h | h
    · rcases flattenN_shape (base ++ [name]) node pe h with ⟨t, ht⟩
      exact ⟨name, t, by simp [topNames], by simp [ht]⟩
    · rcases flattenS_shape base rest pe h with ⟨nm, t, hnm, ht⟩
      exact ⟨nm, t, by simp [topNames, hnm], ht⟩

theorem flattenN_shape (p : Path) (node : PNode) :
    ∀ pe ∈ flattenN p node, ∃ t, pe.1 = p ++ t := by
  cases node with
  | dir children =>
    intro pe hpe
    rcases List.mem_cons.mp hpe with h | h
    · exact ⟨[], by simp [h]⟩
    · rcases flattenS_shape p children pe h with ⟨nm, t, _, ht⟩
      exact ⟨nm :: t, ht⟩
  | file c =>
    intro pe hpe
    simp [flattenN] at hpe
    exact ⟨[], by simp [hpe]⟩
end

theorem base_not_mem_flattenS (base : Path) (st : PStruct) :
    base ∉ (flattenS base st).map Prod.fst := by
  intro h
  rcases List.mem_map.mp h with ⟨pe, hpe, hfst⟩
  rcases flattenS_shape base st pe hpe with ⟨nm, t, _, ht⟩
  exact ne_append_cons base nm t (hfst ▸ ht)

theorem base_not_mem_flattenN (base : Path) (name : String) (node : PNode) :
    base ∉ (flattenN (base ++ [name]) node).map Prod.fst := by
  intro h
  rcases List.mem_map.mp h with ⟨pe, hpe, hfst⟩
  rcases flattenN_shape (base ++ [name]) node pe hpe with ⟨t, ht⟩
  have h3 : base = base ++ [name] ++ t := hfst.symm.trans ht
  have h4 := congrArg List.length h3
  simp at h4

theorem mem_flattenN_shape {base : Path} {name : String} {node : PNode} {q : Path}
    (h : q ∈ (flattenN (base ++ [name]) node).map Prod.fst) :
    ∃ t, q = base ++ name :: t := by
  rcases List.mem_map.mp h with ⟨pe, hpe, hfst⟩
  rcases flattenN_shape (base ++ [name]) node pe hpe with ⟨t, ht⟩
  exact ⟨t, by rw [← hfst, ht]; simp⟩

theorem mem_flattenS_shape {base : Path} {st : PStruct} {q : Path}
    (h : q ∈ (flattenS base st).map Prod.fst) :
    ∃ nm t, nm ∈ topNames st ∧ q = base ++ nm :: t := by
  rcases List.mem_map.mp h with ⟨pe, hpe, hfst⟩
  rcases flattenS_shape base st pe hpe with ⟨nm, t, hnm, ht⟩
  exact ⟨nm, t, hnm, hfst ▸ ht⟩

mutual
theorem flattenS_shift (a base : Path) (st : PStruct) :
    flattenS (a ++ base) st =
      (flattenS base st).map (fun pe => (a ++ pe.1, pe.2)) := by
  cases st with
  | nil => simp [flattenS]
  | cons name node rest =>
    rw [show flattenS (a ++ base) (.cons name node rest)
        = flattenN ((a ++ base) ++ [name]) node ++ flattenS (a ++ base) rest from rfl]
    rw [show flattenS base (.cons name node rest)
        = flattenN (base ++ [name]) node ++ flattenS base rest from rfl]
    rw [List.append_assoc a base [name], flattenN_shift a (base ++ [name]) node,
      flattenS_shift a base rest, List.map_append]

theorem flattenN_shift (a p : Path) (node : PNode) :
    flattenN (a ++ p) node =
      (flattenN p node).map (fun pe => (a ++ pe.1, pe.2)) := by
  cases node with
  | dir children =>
    rw [show flattenN (a ++ p) (.dir children)
        = (a ++ p, FsEntry.dirE) :: flattenS (a ++ p) children from rfl]
    rw [show flattenN p (.dir children)
        = (p, FsEntry.dirE) :: flattenS p children from rfl]
    rw [flattenS_shift a p children, List.map_cons]
  | file c => simp [flattenN]
end

mutual
theorem flattenS_parent (base : Path) (st : PStruct) :
    ∀ pe ∈ flattenS base st,
      parentPath pe.1 = base ∨ (parentPath pe.1, FsEntry.dirE) ∈ flattenS base st := by
  cases st with
  | nil => intro pe hpe; simp [flattenS] at hpe
  | cons name node rest =>
    intro pe hpe
    rcases List.mem_append.mp hpe with h | h
    · rcases flattenN_parent (base ++ [name]) node pe h with hl | hr
      · rw [parentPath_concat] at hl
        exact Or.inl hl
      · exact Or.inr (List.mem_append.mpr (Or.inl hr))
    · rcases flattenS_parent base rest pe h with hl | hr
      · exact Or.inl hl
      · exact Or.inr (List.mem_append.mpr (Or.inr hr))

theorem flattenN_parent (p : Path) (node : PNode) :
    ∀ pe ∈ flattenN p node,
      parentPath pe.1 = parentPath p ∨ (parentPath pe.1, FsEntry.dirE) ∈ flattenN p node := by
  cases node with
  | dir children =>
    intro pe hpe
    rcases List.mem_cons.mp hpe with h | h
    · exact Or.inl (by rw [h])
    · rcases flattenS_parent p children pe h with hl | hr
      · exact Or.inr (by rw [hl]; exact List.mem_cons_self _ _)
      · exact Or.inr (List.mem_cons.mpr (Or.inr hr))
  | file c =>
    intro pe hpe
    simp [flattenN] at hpe
    exact Or.inl (by rw [hpe])
end

/-! ## Lemmas about the filesystem primitives -/

theorem mkdirP_of_isDir {fs : FS} {p : Path} (h : isDir fs p = true) :
    mkdirP p fs = .ok fs := by
  cases p with
  | nil => rfl
  | cons a as => rw [mkdirP_cons_unfold, if_pos h]

theorem mkdirP_fresh {fs : FS} {a : String} {as : Path}
    (hparent : isDir fs (parentPath (a :: as)) = true)
    (hnone : fs (a :: as) = none) :
    mkdirP (a :: as) fs = .ok (fsUpdate (a :: as) FsEntry.dirE fs) := by
  have hnd : isDir fs (a :: as) = false := by simp [isDir, hnone]
  rw [mkdirP_cons_unfold, if_neg (by simp [hnd]), if_neg (by simp [hnone]),
    mkdirP_of_isDir hparent]

theorem mkdirP_fresh_of_ne {fs : FS} {p : Path} (hne : p ≠ [])
    (hparent : isDir fs (parentPath p) = true) (hnone : fs p = none) :
    mkdirP p fs = .ok (fsUpdate p FsEntry.dirE fs) := by
  cases p with
  | nil => exact absurd rfl hne
  | cons a as => exact mkdirP_fresh hparent hnone

theorem mkdirP_frame {fs : FS} {p : Path}
    (hparent : isDir fs (parentPath p) = true) (q : Path) (hq : q ≠ p) :
    stateOf (mkdirP p fs) q = fs q := by
  cases p with
  | nil => rfl
  | cons a as =>
    rw [mkdirP_cons_unfold]
    by_cases h1 : isDir fs (a :: as)
    · rw [if_pos h1]; rfl
    · rw [if_neg h1]
      by_cases h2 : (fs (a :: as)).isSome
      · rw [if_pos h2]; rfl
      · rw [if_neg h2, mkdirP_of_isDir hparent]
        exact fsUpdate_ne _ _ hq

theorem mkdirP_ok_isDir {fs fs' : FS} {p : Path} (h : mkdirP p fs = .ok fs') :
    isDir fs' p = true := by
  cases p with
  | nil => simp [isDir]
  | cons a as =>
    rw [mkdirP_cons_unfold] at h
    by_cases h1 : isDir fs (a :: as)
    · rw [if_pos h1] at h
      injection h with h
      exact h ▸ h1
    · rw [if_neg h1] at h
      by_cases h2 : (fs (a :: as)).isSome
      · rw [if_pos h2] at h; exact absurd h (by simp)
      · rw [if_neg h2] at h
        cases hrec : mkdirP (parentPath (a :: as)) fs with
        | error fsE => rw [hrec] at h; exact absurd h (by simp)
        | ok fs₁ =>
          rw [hrec] at h
          injection h with h
          exact h ▸ isDir_update_self ..

theorem mkdirP_ok_lookup {fs fs' : FS} {a : String} {as : Path}
    (h : mkdirP (a :: as) fs = .ok fs') :
    fs' (a :: as) = some FsEntry.dirE := by
  have := mkdirP_ok_isDir h
  simpa [isDir] using this

theorem write_text_ok {p : Path} {c : String} {fs fs' : FS}
    (h : write_text p c fs = .ok fs') :
    fs' = fsUpdate p (FsEntry.fileE c) fs := by
  unfold write_text at h
  by_cases h1 : fs p == some FsEntry.dirE
  · rw [if_pos h1] at h; exact absurd h (by simp)
  · rw [if_neg (by simpa using h1)] at h
    by_cases h2 : isDir fs (parentPath p)
    · rw [if_pos h2] at h
      injection h with h
      exact h.symm
    · rw [if_neg h2] at h; exact absurd h (by simp)

theorem write_text_of_cond {p : Path} {c : String} {fs : FS}
    (h1 : fs p ≠ some FsEntry.dirE) (h2 : isDir fs (parentPath p) = true) :
    write_text p c fs = .ok (fsUpdate p (FsEntry.fileE c) fs) := by
  unfold write_text
  rw [if_neg (by simpa using h1), if_pos h2]

theorem write_text_frame (p : Path) (c : String) (fs : FS) (q : Path)
    (hq : q ≠ p) : stateOf (write_text p c fs) q = fs q := by
  unfold write_text
  by_cases h1 : fs p == some FsEntry.dirE
  · rw [if_pos h1]; rfl
  · rw [if_neg (by simpa using h1)]
    by_cases h2 : isDir fs (parentPath p)
    · rw [if_pos h2]
      exact fsUpdate_ne _ _ hq
    · rw [if_neg h2]; rfl

theorem materializeFile_of_parentDir {p : Path} {c : String} {fs : FS}
    (hp : isDir fs (parentPath p) = true) :
    materializeFile p c fs =
      if !(pathExists fs p) || pyNonBlank c then write_text p c fs
      else .ok fs := by
  unfold materializeFile
  rw [mkdirP_of_isDir hp]

theorem materializeFile_frame {p : Path} {c : String} {fs : FS}
    (hp : isDir fs (parentPath p) = true) (q : Path) (hq : q ≠ p) :
    stateOf (materializeFile p c fs) q = fs q := by
  rw [materializeFile_of_parentDir hp]
  by_cases hg : (!(pathExists fs p) || pyNonBlank c)
  · rw [if_pos hg]
    exact write_text_frame p c fs q hq
  · rw [if_neg hg]; rfl

/-! ## Frame property of the materializer -/

mutual
theorem createS_frame (base : Path) (st : PStruct) (fs : FS) (q : Path)
    (hb : isDir fs base = true) (hq : q ∉ (flattenS base st).map Prod.fst) :
    stateOf (create_directory_structure base st fs) q = fs q := by
  cases st with
  | nil => rfl
  | cons name node rest =>
    have hflat : flattenS base (.cons name node rest)
        = flattenN (base ++ [name]) node ++ flattenS base rest := rfl
    rw [hflat, List.map_append] at hq
    have hqn : q ∉ (flattenN (base ++ [name]) node).map Prod.fst := by
      intro hmem
      exact hq (List.mem_append.mpr (Or.inl hmem))
    have hqr : q ∉ (flattenS base rest).map Prod.fst := by
      intro hmem
      exact hq (List.mem_append.mpr (Or.inr hmem))
    have hparent : isDir fs (parentPath (base ++ [name])) = true := by
      rw [parentPath_concat]; exact hb
    have hunfold : create_directory_structure base (.cons name node rest) fs
        = match createNode (base ++ [name]) node fs with
          | .error fsE => .error fsE
          | .ok fs₁ => create_directory_structure base rest fs₁ := rfl
    rw [hunfold]
    cases hres : createNode (base ++ [name]) node fs with
    | error fsE =>
      have hfr := createN_frame (base ++ [name]) node fs q hparent hqn
      rw [hres] at hfr
      exact hfr
    | ok fs₁ =>
      have hfs₁ : fs₁ q = fs q := by
        have hfr := createN_frame (base ++ [name]) node fs q hparent hqn
        rw [hres] at hfr
        exact hfr
      have hfs₁b : fs₁ base = fs base := by
        have hfr := createN_frame (base ++ [name]) node fs base hparent
          (base_not_mem_flattenN base name node)
        rw [hres] at hfr
        exact hfr
      have hb₁ : isDir fs₁ base = true := (isDir_congr hfs₁b).trans hb
      rw [createS_frame base rest fs₁ q hb₁ hqr, hfs₁]

theorem createN_frame (p : Path) (node : PNode) (fs : FS) (q : Path)
    (hparent : isDir fs (parentPath p) = true)
    (hq : q ∉ (flattenN p node).map Prod.fst) :
    stateOf (createNode p node fs) q = fs q := by
  cases node with
  | dir children =>
    have hflat : flattenN p (.dir children)
        = (p, FsEntry.dirE) :: flattenS p children := rfl
    rw [hflat, List.map_cons] at hq
    have hqp : q ≠ p := by
      intro h
      exact hq (List.mem_cons.mpr (Or.inl h))
    have hqc : q ∉ (flattenS p children).map Prod.fst := by
      intro hmem
      exact hq (List.mem_cons.mpr (Or.inr hmem))
    have hunfold : createNode p (.dir children) fs
        = match mkdirP p fs with
          | .error fsE => .error fsE
          | .ok fs₁ => create_directory_structure p children fs₁ := rfl
    rw [hunfold]
    cases hres : mkdirP p fs with
    | error fsE =>
      have hfr := mkdirP_frame hparent q hqp
      rw [hres] at hfr
      exact hfr
    | ok fs₁ =>
      have hfs₁ : fs₁ q = fs q := by
        have hfr := mkdirP_frame hparent q hqp
        rw [hres] at hfr
        exact hfr
      have hp₁ : isDir fs₁ p = true := mkdirP_ok_isDir hres
      rw [createS_frame p children fs₁ q hp₁ hqc, hfs₁]
  | file c =>
    have hqp : q ≠ p := by
      intro h
      apply hq
      rw [show flattenN p (.file c) = [(p, FsEntry.fileE c)] from rfl]
      simp [h]
    exact materializeFile_frame hparent q hqp
end

/-! ## Fresh-run characterization of the materializer -/

theorem pathExists_false_of_none {fs : FS} {p : Path} (hne : p ≠ [])
    (h : fs p = none) : pathExists fs p = false := by
  cases p with
  | nil => exact absurd rfl hne
  | cons a as => simp [pathExists, h]

theorem nodupS_cons_iff {name : String} {node : PNode} {rest : PStruct} :
    nodupS (.cons name node rest) = true ↔
      name ∉ topNames rest ∧ nodupN node = true ∧ nodupS rest = true := by
  rw [show nodupS (.cons name node rest)
      = (!((topNames rest).contains name) && nodupN node && nodupS rest) from rfl]
  simp [List.elem_iff, and_assoc]

mutual
theorem createS_fresh (base : Path) (st : PStruct) (fs : FS)
    (hb : isDir fs base = true)
    (hfresh : ∀ q ∈ (flattenS base st).map Prod.fst, fs q = none)
    (hnd : nodupS st = true) :
    create_directory_structure base st fs = .ok (applyW (flattenS base st) fs) := by
  cases st with
  | nil => rfl
  | cons name node rest =>
    rcases nodupS_cons_iff.mp hnd with ⟨hname, hndN, hndR⟩
    have hflat : flattenS base (.cons name node rest)
        = flattenN (base ++ [name]) node ++ flattenS base rest := rfl
    have hfN : ∀ q ∈ (flattenN (base ++ [name]) node).map Prod.fst, fs q = none := by
      intro q hq
      exact hfresh q (by rw [hflat, List.map_append]; exact List.mem_append.mpr (Or.inl hq))
    have hparent : isDir fs (parentPath (base ++ [name])) = true := by
      rw [parentPath_concat]; exact hb
    have hnode := createN_fresh (base ++ [name]) node fs (by simp) hparent hfN hndN
    have hb₁ : isDir (applyW (flattenN (base ++ [name]) node) fs) base = true := by
      rw [show isDir (applyW (flattenN (base ++ [name]) node) fs) base
          = isDir fs base from
        isDir_congr (applyW_frame (base_not_mem_flattenN base name node))]
      exact hb
    have hfresh₁ : ∀ q ∈ (flattenS base rest).map Prod.fst,
        applyW (flattenN (base ++ [name]) node) fs q = none := by
      intro q hq
      rcases mem_flattenS_shape hq with ⟨nm, t, hnm, hqeq⟩
      have hqnot : q ∉ (flattenN (base ++ [name]) node).map Prod.fst := by
        intro hmem
        rcases mem_flattenN_shape hmem with ⟨t', hqeq'⟩
        rcases append_cons_inj (hqeq.symm.trans hqeq') with ⟨hnmeq, _⟩
        exact hname (hnmeq ▸ hnm)
      rw [applyW_frame hqnot]
      exact hfresh q (by rw [hflat, List.map_append]; exact List.mem_append.mpr (Or.inr hq))
    have hrest := createS_fresh base rest
      (applyW (flattenN (base ++ [name]) node) fs) hb₁ hfresh₁ hndR
    have hunfold : create_directory_structure base (.cons name node rest) fs
        = match createNode (base ++ [name]) node fs with
          | .error fsE => .error fsE
          | .ok fs₁ => create_directory_structure base rest fs₁ := rfl
    rw [hunfold, hnode]
    exact hrest.trans (congrArg Except.ok (by rw [hflat, applyW_append]))

theorem createN_fresh (p : Path) (node : PNode) (fs : FS)
    (hne : p ≠ []) (hparent : isDir fs (parentPath p) = true)
    (hfresh : ∀ q ∈ (flattenN p node).map Prod.fst, fs q = none)
    (hnd : nodupN node = true) :
    createNode p node fs = .ok (applyW (flattenN p node) fs) := by
  cases node with
  | dir children =>
    have hflat : flattenN p (.dir children)
        = (p, FsEntry.dirE) :: flattenS p children := rfl
    have hpnone : fs p = none := hfresh p (by rw [hflat, List.map_cons]; exact List.mem_cons_self _ _)
    have hmk := mkdirP_fresh_of_ne hne hparent hpnone
    have hfresh₁ : ∀ q ∈ (flattenS p children).map Prod.fst,
        fsUpdate p FsEntry.dirE fs q = none := by
      intro q hq
      rcases mem_flattenS_shape hq with ⟨nm, t, _, hqeq⟩
      rw [fsUpdate_ne _ _ (hqeq ▸ (ne_append_cons p nm t).symm)]
      exact hfresh q (by rw [hflat, List.map_cons]; exact List.mem_cons.mpr (Or.inr hq))
    have hch := createS_fresh p children (fsUpdate p FsEntry.dirE fs)
      (isDir_update_self p fs) hfresh₁ (by rw [← show nodupN (.dir children) = nodupS children from rfl]; exact hnd)
    have hunfold : createNode p (.dir children) fs
        = match mkdirP p fs with
          | .error fsE => .error fsE
          | .ok fs₁ => create_directory_structure p children fs₁ := rfl
    rw [hunfold, hmk]
    exact hch.trans (congrArg Except.ok (by rw [hflat, applyW_cons]))

  | file c =>
    have hflat : flattenN p (.file c) = [(p, FsEntry.fileE c)] := rfl
    have hpnone : fs p = none := hfresh p (by rw [hflat]; simp)
    have hx : pathExists fs p = false := pathExists_false_of_none hne hpnone
    have hunfold : createNode p (.file c) fs = materializeFile p c fs := rfl
    rw [hunfold, materializeFile_of_parentDir hparent, hx]
    rw [if_pos (by simp)]
    rw [write_text_of_cond (by simp [hpnone]) hparent, hflat]
    rfl
end

/-! ## Post-state of a successful run, and stability (idempotence) -/

/-- What a successful run guarantees at one specification entry:
directories exist as directories; file targets exist, and carry exactly
the specified content whenever that content does not strip to nothing. -/
def entryOK (g : FS) : Path × FsEntry → Prop
  | (p, FsEntry.dirE) => g p = some FsEntry.dirE
  | (p, FsEntry.fileE c) =>
    (g p).isSome = true ∧ (pyNonBlank c = true → g p = some (FsEntry.fileE c))

def PostL (l : List (Path × FsEntry)) (g : FS) : Prop := ∀ pe ∈ l, entryOK g pe

theorem entryOK_congr {g g' : FS} {pe : Path × FsEntry}
    (h : g' pe.1 = g pe.1) (hok : entryOK g pe) : entryOK g' pe := by
  rcases pe with ⟨p, e⟩
  cases e with
  | dirE => exact h.trans hok
  | fileE c =>
    refine ⟨?_, fun hnb => ?_⟩
    · rw [show g' (p, FsEntry.fileE c).1 = g (p, FsEntry.fileE c).1 from h] at *
      exact hok.1
    · rw [show g' (p, FsEntry.fileE c).1 = g (p, FsEntry.fileE c).1 from h]
      exact hok.2 hnb

theorem isDir_lookup_of_ne {fs : FS} {p : Path} (hne : p ≠ [])
    (h : isDir fs p = true) : fs p = some FsEntry.dirE := by
  cases p with
  | nil => exact absurd rfl hne
  | cons a as => simpa [isDir] using h

theorem isSome_of_pathExists {fs : FS} {p : Path} (hne : p ≠ [])
    (h : pathExists fs p = true) : (fs p).isSome = true := by
  cases p with
  | nil => exact absurd rfl hne
  | cons a as => simpa [pathExists] using h

theorem pathExists_of_isSome {fs : FS} {p : Path}
    (h : (fs p).isSome = true) : pathExists fs p = true := by
  simp [pathExists, h]

mutual
theorem createS_post (base : Path) (st : PStruct) (fs fs₁ : FS)
    (hb : isDir fs base = true) (hnd : nodupS st = true)
    (h : create_directory_structure base st fs = .ok fs₁) :
    PostL (flattenS base st) fs₁ := by
  cases st with
  | nil =>
    intro pe hpe
    exact absurd hpe (by simp [flattenS])
  | cons name node rest =>
    rcases nodupS_cons_iff.mp hnd with ⟨hname, hndN, hndR⟩
    have hflat : flattenS base (.cons name node rest)
        = flattenN (base ++ [name]) node ++ flattenS base rest := rfl
    have hparent : isDir fs (parentPath (base ++ [name])) = true := by
      rw [parentPath_concat]; exact hb
    have hunfold : create_directory_structure base (.cons name node rest) fs
        = match createNode (base ++ [name]) node fs with
          | .error fsE => .error fsE
          | .ok fs₂ => create_directory_structure base rest fs₂ := rfl
    rw [hunfold] at h
    cases hres : createNode (base ++ [name]) node fs with
    | error fsE =>
      rw [hres] at h
      exact absurd h (by simp)
    | ok fsa =>
      rw [hres] at h
      have h2 : create_directory_structure base rest fsa = Except.ok fs₁ := h
      have hpostN : PostL (flattenN (base ++ [name]) node) fsa :=
        createN_post (base ++ [name]) node fs fsa hparent (by simp) hndN hres
      have hfsab : fsa base = fs base := by
        have hfr := createN_frame (base ++ [name]) node fs base hparent
          (base_not_mem_flattenN base name node)
        rw [hres] at hfr
        exact hfr
      have hba : isDir fsa base = true := (isDir_congr hfsab).trans hb
      have hpostR : PostL (flattenS base rest) fs₁ :=
        createS_post base rest fsa fs₁ hba hndR h2
      intro pe hpe
      rw [hflat] at hpe
      rcases List.mem_append.mp hpe with hmem | hmem
      · have hq : pe.1 ∉ (flattenS base rest).map Prod.fst := by
          intro hmem2
          rcases mem_flattenS_shape hmem2 with ⟨nm, t, hnm, hqeq⟩
          rcases mem_flattenN_shape (List.mem_map.mpr ⟨pe, hmem, rfl⟩) with ⟨t', hqeq'⟩
          rcases append_cons_inj (hqeq'.symm.trans hqeq) with ⟨hnmeq, _⟩
          exact hname (hnmeq ▸ hnm)
        have hfr := createS_frame base rest fsa pe.1 hba hq
        rw [h2] at hfr
        exact entryOK_congr hfr (hpostN pe hmem)
      · exact hpostR pe hmem

theorem createN_post (p : Path) (node : PNode) (fs fs₁ : FS)
    (hparent : isDir fs (parentPath p) = true) (hne : p ≠ [])
    (hnd : nodupN node = true) (h : createNode p node fs = .ok fs₁) :
    PostL (flattenN p node) fs₁ := by
  cases node with
  | dir children =>
    have hflat : flattenN p (.dir children)
        = (p, FsEntry.dirE) :: flattenS p children := rfl
    have hunfold : createNode p (.dir children) fs
        = match mkdirP p fs with
          | .error fsE => .error fsE
          | .ok fs₂ => create_directory_structure p children fs₂ := rfl
    rw [hunfold] at h
    cases hres : mkdirP p fs with
    | error fsE =>
      rw [hres] at h
      exact absurd h (by simp)
    | ok fsm =>
      rw [hres] at h
      have h2 : create_directory_structure p children fsm = Except.ok fs₁ := h
      have hdirm : isDir fsm p = true := mkdirP_ok_isDir hres
      have hndC : nodupS children = true := hnd
      have hpostC : PostL (flattenS p children) fs₁ :=
        createS_post p children fsm fs₁ hdirm hndC h2
      intro pe hpe
      rw [hflat] at hpe
      rcases List.mem_cons.mp hpe with hpe1 | hmem
      · subst hpe1
        have hq : p ∉ (flattenS p children).map Prod.fst := by
          intro hmem2
          rcases mem_flattenS_shape hmem2 with ⟨nm, t, _, hqeq⟩
          exact ne_append_cons p nm t hqeq
        have hfr := createS_frame p children fsm p hdirm hq
        rw [h2] at hfr
        exact hfr.trans (isDir_lookup_of_ne hne hdirm)
      · exact hpostC pe hmem
  | file c =>
    have hflat : flattenN p (.file c) = [(p, FsEntry.fileE c)] := rfl
    have hmat : materializeFile p c fs = .ok fs₁ := h
    rw [materializeFile_of_parentDir hparent] at hmat
    intro pe hpe
    rw [hflat] at hpe
    have hpe1 : pe = (p, FsEntry.fileE c) := by simpa using hpe
    subst hpe1
    by_cases hg : (!(pathExists fs p) || pyNonBlank c) = true
    · rw [if_pos hg] at hmat
      have hup := write_text_ok hmat
      subst hup
      exact ⟨by simp [fsUpdate_self], fun _ => fsUpdate_self ..⟩
    · rw [if_neg hg] at hmat
      injection hmat with hmat
      subst hmat
      simp only [Bool.or_eq_true, Bool.not_eq_true', not_or, Bool.not_eq_true] at hg
      exact ⟨isSome_of_pathExists hne (by simpa using hg.1),
        fun hnb => absurd hnb (by simp [hg.2])⟩
end

mutual
theorem createS_stable (base : Path) (st : PStruct) (g : FS)
    (hb : isDir g base = true) (hpost : PostL (flattenS base st) g) :
    create_directory_structure base st g = .ok g := by
  cases st with
  | nil => rfl
  | cons name node rest =>
    have hflat : flattenS base (.cons name node rest)
        = flattenN (base ++ [name]) node ++ flattenS base rest := rfl
    have hpostN : PostL (flattenN (base ++ [name]) node) g := by
      intro pe hpe
      exact hpost pe (by rw [hflat]; exact List.mem_append.mpr (Or.inl hpe))
    have hpostR : PostL (flattenS base rest) g := by
      intro pe hpe
      exact hpost pe (by rw [hflat]; exact List.mem_append.mpr (Or.inr hpe))
    have hnode := createN_stable (base ++ [name]) node g
      (by rw [parentPath_concat]; exact hb) (by simp) hpostN
    have hrest := createS_stable base rest g hb hpostR
    have hunfold : create_directory_structure base (.cons name node rest) g
        = match createNode (base ++ [name]) node g with
          | .error fsE => .error fsE
          | .ok fs₁ => create_directory_structure base rest fs₁ := rfl
    rw [hunfold, hnode]
    exact hrest

theorem createN_stable (p : Path) (node : PNode) (g : FS)
    (hparent : isDir g (parentPath p) = true) (hne : p ≠ [])
    (hpost : PostL (flattenN p node) g) :
    createNode p node g = .ok g := by
  cases node with
  | dir children =>
    have hflat : flattenN p (.dir children)
        = (p, FsEntry.dirE) :: flattenS p children := rfl
    have hdir : g p = some FsEntry.dirE :=
      hpost (p, FsEntry.dirE) (by rw [hflat]; exact List.mem_cons_self _ _)
    have hmk : mkdirP p g = .ok g := mkdirP_of_isDir (isDir_of_lookup hdir)
    have hpostC : PostL (flattenS p children) g := by
      intro pe hpe
      exact hpost pe (by rw [hflat]; exact List.mem_cons.mpr (Or.inr hpe))
    have hch := createS_stable p children g (isDir_of_lookup hdir) hpostC
    have hunfold : createNode p (.dir children) g
        = match mkdirP p g with
          | .error fsE => .error fsE
          | .ok fs₁ => create_directory_structure p children fs₁ := rfl
    rw [hunfold, hmk]
    exact hch
  | file c =>
    have hflat : flattenN p (.file c) = [(p, FsEntry.fileE c)] := rfl
    have hok : entryOK g (p, FsEntry.fileE c) :=
      hpost (p, FsEntry.fileE c) (by rw [hflat]; simp)
    have hx : pathExists g p = true := pathExists_of_isSome hok.1
    rw [show createNode p (.file c) g = materializeFile p c g from rfl,
      materializeFile_of_parentDir hparent, hx]
    by_cases hnb : pyNonBlank c = true
    · rw [if_pos (by simp [hnb])]
      have hgp : g p = some (FsEntry.fileE c) := hok.2 hnb
      rw [write_text_of_cond (by simp [hgp]) hparent, fsUpdate_eq_self hgp]
    · rw [if_neg (by simp [Bool.not_eq_true] at hnb ⊢; exact hnb)]
end

/-! ## Placeholder syntax in rendered output -/

def isIdentChar (c : Char) : Bool := c.isAlpha || c.isDigit || c == '_'

/-- Scan for the rest of a placeholder after at least one identifier
character has been read: more identifier characters, then a closing
brace. -/
def identCont : List Char → Bool
  | [] => false
  | c :: rest => if c = rbrace then true else isIdentChar c && identCont rest

/-- True when the list begins with a nonempty identifier followed by a
closing brace. -/
def startsField : List Char → Bool
  | [] => false
  | c :: rest => isIdentChar c && identCont rest

/-- True when the text contains a brace-delimited placeholder token
`\x7bident\x7d` with a nonempty identifier. -/
def hasPH : List Char → Bool
  | [] => false
  | c :: rest => if c = lbrace then startsField rest || hasPH rest else hasPH rest

theorem hasPH_append_of_noLB {xs : List Char}
    (hx : ∀ c ∈ xs, c ≠ lbrace) (ys : List Char) :
    hasPH (xs ++ ys) = hasPH ys := by
  induction xs with
  | nil => rfl
  | cons c rest ih =>
    have hc : c ≠ lbrace := hx c (List.mem_cons_self _ _)
    rw [List.cons_append,
      show hasPH (c :: (rest ++ ys))
        = if c = lbrace then startsField (rest ++ ys) || hasPH (rest ++ ys)
          else hasPH (rest ++ ys) from rfl,
      if_neg hc]
    exact ih (fun c' hc' => hx c' (List.mem_cons.mpr (Or.inr hc')))

theorem hasPH_of_noLB {xs : List Char} (hx : ∀ c ∈ xs, c ≠ lbrace) :
    hasPH xs = false := by
  have h := hasPH_append_of_noLB hx []
  rwa [List.append_nil] at h

/-- Sufficient condition on parsed pieces for placeholder-free output:
every literal piece but the last is free of opening braces, and the
last literal piece contains no placeholder itself. -/
def pieceListSafe : List FmtPiece → Bool
  | [] => true
  | .lit l :: rest =>
    (if rest.isEmpty then !(hasPH l) else l.all (fun c => !(c == lbrace)))
      && pieceListSafe rest
  | .fieldP _ :: rest => pieceListSafe rest

/-- All values a context can supply are free of opening braces. -/
def ctxValuesNoLB (ctx : Ctx) : Prop :=
  ∀ nm v, ctxLookup ctx nm = some v → ∀ c ∈ v.data, c ≠ lbrace

theorem renderPieces_noPH {ctx : Ctx} (hctx : ctxValuesNoLB ctx) :
    ∀ ps, pieceListSafe ps = true →
      ∀ out, renderPieces ctx ps = some out → hasPH out = false := by
  intro ps
  induction ps with
  | nil =>
    intro _ out hout
    have hout2 : out = [] := by
      rw [show renderPieces ctx [] = some [] from rfl] at hout
      injection hout with hout
      exact hout.symm
    rw [hout2]
    rfl
  | cons piece rest ih =>
    cases piece with
    | lit l =>
      intro hsafe out hout
      rw [show renderPieces ctx (.lit l :: rest)
          = (renderPieces ctx rest).map (fun o => l ++ o) from rfl] at hout
      rcases Option.map_eq_some'.mp hout with ⟨out', hout', houteq⟩
      have hsafe2 : (if rest.isEmpty then !(hasPH l)
          else l.all (fun c => !(c == lbrace))) = true ∧ pieceListSafe rest = true := by
        have h := hsafe
        rw [show pieceListSafe (.lit l :: rest)
            = ((if rest.isEmpty then !(hasPH l) else l.all (fun c => !(c == lbrace)))
              && pieceListSafe rest) from rfl] at h
        exact Bool.and_eq_true_iff.mp h
      cases rest with
      | nil =>
        have hout'2 : out' = [] := by
          rw [show renderPieces ctx [] = some [] from rfl] at hout'
          injection hout' with h
          exact h.symm
        rw [← houteq, hout'2, List.append_nil]
        have := hsafe2.1
        rw [List.isEmpty_nil, if_pos rfl] at this
        simpa using this
      | cons r rs =>
        have hnb : ∀ c ∈ l, c ≠ lbrace := by
          intro c hc
          have := hsafe2.1
          rw [show (r :: rs).isEmpty = false from rfl, if_neg (by simp)] at this
          have h2 := List.all_eq_true.mp this c hc
          simpa using h2
        rw [← houteq, hasPH_append_of_noLB hnb]
        exact ih hsafe2.2 out' hout'
    | fieldP nm =>
      intro hsafe out hout
      have hsafe2 : pieceListSafe rest = true := hsafe
      rw [show renderPieces ctx (.fieldP nm :: rest)
          = (match ctxLookup ctx nm, renderPieces ctx rest with
             | some v, some o => some (v.data ++ o)
             | _, _ => none) from rfl] at hout
      cases hlk : ctxLookup ctx nm with
      | none => rw [hlk] at hout; exact absurd hout (by simp)
      | some v =>
        rw [hlk] at hout
        cases hr : renderPieces ctx rest with
        | none => rw [hr] at hout; exact absurd hout (by simp)
        | some out' =>
          rw [hr] at hout
          injection hout with hout
          have hnb : ∀ c ∈ v.data, c ≠ lbrace := hctx nm v hlk
          rw [← hout, hasPH_append_of_noLB hnb]
          exact ih hsafe2 out' hr

/-- Safety of a template: its parse succeeds and the parsed pieces are
placeholder-safe in the sense of `pieceListSafe`. -/
def tmplSafe (t : String) : Bool :=
  match parseFmt t.data with
  | some ps => pieceListSafe ps
  | none => false

theorem tmplSafe_entity : tmplSafe entityTemplate = true := by decide
theorem tmplSafe_repository : tmplSafe repositoryTemplate = true := by decide
theorem tmplSafe_pyproject : tmplSafe pyprojectTemplate = true := by decide
theorem tmplSafe_readme : tmplSafe readmeTemplate = true := by decide

theorem pyFormat_isSome_entity_gen (e n : String) :
    (pyFormat entityTemplate (ctxGenerate e n)).isSome = true := rfl
theorem pyFormat_isSome_repository_gen (e n : String) :
    (pyFormat repositoryTemplate (ctxGenerate e n)).isSome = true := rfl
theorem pyFormat_isSome_pyproject_gen (e n : String) :
    (pyFormat pyprojectTemplate (ctxGenerate e n)).isSome = true := rfl
theorem pyFormat_isSome_readme_gen (e n : String) :
    (pyFormat readmeTemplate (ctxGenerate e n)).isSome = true := rfl
theorem pyFormat_isSome_pyproject_root (e n : String) :
    (pyFormat pyprojectTemplate (ctxRoot e n)).isSome = true := rfl
theorem pyFormat_isSome_readme_root (e n : String) :
    (pyFormat readmeTemplate (ctxRoot e n)).isSome = true := rfl
theorem pyFormat_isSome_entity_root (e n : String) :
    (pyFormat entityTemplate (ctxRoot e n)).isSome = true := rfl
theorem pyFormat_isSome_repository_root (e n : String) :
    (pyFormat repositoryTemplate (ctxRoot e n)).isSome = true := rfl

/-! ## Lemmas about the template-writing loops -/

theorem isDir_false_of_none {fs : FS} {p : Path} (hne : p ≠ [])
    (h : fs p = none) : isDir fs p = false := by
  cases p with
  | nil => exact absurd rfl hne
  | cons a as => simp [isDir, h]

theorem mkdirExistOk_fresh {fs : FS} {b : Path} {x : String}
    (hb : isDir fs b = true) (hnone : fs (b ++ [x]) = none) :
    mkdirExistOk (b ++ [x]) fs = .ok (fsUpdate (b ++ [x]) FsEntry.dirE fs) := by
  have h1 : isDir fs (b ++ [x]) = false := isDir_false_of_none (by simp) hnone
  unfold mkdirExistOk
  rw [if_neg (by simp [h1]), if_neg (by simp [hnone]),
    if_pos (by rw [parentPath_concat]; exact hb)]

theorem mkdirExistOk_frame (p : Path) (fs : FS) (q : Path) (hq : q ≠ p) :
    stateOf (mkdirExistOk p fs) q = fs q := by
  unfold mkdirExistOk
  by_cases h1 : isDir fs p
  · rw [if_pos h1]; rfl
  · rw [if_neg h1]
    by_cases h2 : (fs p).isSome
    · rw [if_pos h2]; rfl
    · rw [if_neg h2]
      by_cases h3 : isDir fs (parentPath p)
      · rw [if_pos h3]
        exact fsUpdate_ne _ _ hq
      · rw [if_neg h3]; rfl

theorem writeTemplates_fresh (tdir : Path) (ctx : Ctx)
    (ts : List (String × String)) (fs : FS)
    (hdir : isDir fs tdir = true)
    (hnd : ∀ nm, fs (tdir ++ [nm]) ≠ some FsEntry.dirE)
    (hfmt : ∀ pr ∈ ts, (pyFormat pr.2 ctx).isSome = true) :
    writeTemplates tdir ctx ts fs
      = .ok (applyW (ts.map (fun pr =>
          (tdir ++ [pr.1], FsEntry.fileE ((pyFormat pr.2 ctx).getD (""))))) fs) := by
  induction ts generalizing fs with
  | nil => rfl
  | cons pr rest ih =>
    rcases pr with ⟨nm, tmpl⟩
    obtain ⟨c, hc⟩ := Option.isSome_iff_exists.mp
      (hfmt (nm, tmpl) (List.mem_cons_self _ _))
    have hunfold : writeTemplates tdir ctx ((nm, tmpl) :: rest) fs
        = match pyFormat tmpl ctx with
          | none => .error fs
          | some content =>
            match write_text (tdir ++ [nm]) content fs with
            | .error fsE => .error fsE
            | .ok fs₁ => writeTemplates tdir ctx rest fs₁ := rfl
    have hw : write_text (tdir ++ [nm]) c fs
        = .ok (fsUpdate (tdir ++ [nm]) (FsEntry.fileE c) fs) :=
      write_text_of_cond (hnd nm) (by rw [parentPath_concat]; exact hdir)
    have hstep0 : writeTemplates tdir ctx ((nm, tmpl) :: rest) fs
        = match write_text (tdir ++ [nm]) c fs with
          | .error fsE => .error fsE
          | .ok fs₁ => writeTemplates tdir ctx rest fs₁ := by
      rw [hunfold, hc]
    have hstep : writeTemplates tdir ctx ((nm, tmpl) :: rest) fs
        = writeTemplates tdir ctx rest (fsUpdate (tdir ++ [nm]) (FsEntry.fileE c) fs) := by
      rw [hstep0, hw]
    rw [hstep]
    have hdir' : isDir (fsUpdate (tdir ++ [nm]) (FsEntry.fileE c) fs) tdir = true := by
      rw [isDir_congr (fsUpdate_ne _ _ (ne_append_cons tdir nm []))]
      exact hdir
    have hnd' : ∀ nm', fsUpdate (tdir ++ [nm]) (FsEntry.fileE c) fs (tdir ++ [nm'])
        ≠ some FsEntry.dirE := by
      intro nm'
      by_cases he : (tdir ++ [nm'] : Path) = tdir ++ [nm]
      · rw [he, fsUpdate_self]; simp
      · rw [fsUpdate_ne _ _ he]; exact hnd nm'
    have hfmt' : ∀ pr ∈ rest, (pyFormat pr.2 ctx).isSome = true := by
      intro pr hpr
      exact hfmt pr (List.mem_cons.mpr (Or.inr hpr))
    have hrec := ih (fsUpdate (tdir ++ [nm]) (FsEntry.fileE c) fs) hdir' hnd' hfmt'
    refine hrec.trans (congrArg Except.ok ?_)
    rw [List.map_cons, applyW_cons, hc]
    rfl

theorem writeTemplates_frame (tdir : Path) (ctx : Ctx)
    (ts : List (String × String)) (fs : FS) (q : Path)
    (hq : ∀ nm ∈ ts.map Prod.fst, q ≠ tdir ++ [nm]) :
    stateOf (writeTemplates tdir ctx ts fs) q = fs q := by
  induction ts generalizing fs with
  | nil => rfl
  | cons pr rest ih =>
    rcases pr with ⟨nm, tmpl⟩
    have hq0 : q ≠ tdir ++ [nm] := hq nm (by simp)
    have hqr : ∀ nm' ∈ rest.map Prod.fst, q ≠ tdir ++ [nm'] := by
      intro nm' hnm'
      exact hq nm' (by simp [hnm'])
    have hunfold : writeTemplates tdir ctx ((nm, tmpl) :: rest) fs
        = match pyFormat tmpl ctx with
          | none => .error fs
          | some content =>
            match write_text (tdir ++ [nm]) content fs with
            | .error fsE => .error fsE
            | .ok fs₁ => writeTemplates tdir ctx rest fs₁ := rfl
    cases hc : pyFormat tmpl ctx with
    | none =>
      have hstep : writeTemplates tdir ctx ((nm, tmpl) :: rest) fs = .error fs := by
        rw [hunfold, hc]
      rw [hstep]
      rfl
    | some content =>
      cases hw : write_text (tdir ++ [nm]) content fs with
      | error fsE =>
        have hstep0 : writeTemplates tdir ctx ((nm, tmpl) :: rest) fs
            = match write_text (tdir ++ [nm]) content fs with
              | .error fsE => .error fsE
              | .ok fs₁ => writeTemplates tdir ctx rest fs₁ := by
          rw [hunfold, hc]
        have hstep : writeTemplates tdir ctx ((nm, tmpl) :: rest) fs = .error fsE := by
          rw [hstep0, hw]
        rw [hstep]
        have hfr := write_text_frame (tdir ++ [nm]) content fs q hq0
        rw [hw] at hfr
        exact hfr

      | ok fs₁ =>
        have hfr : fs₁ q = fs q := by
          have h2 := write_text_frame (tdir ++ [nm]) content fs q hq0
          rw [hw] at h2
          exact h2
        have hstep0 : writeTemplates tdir ctx ((nm, tmpl) :: rest) fs
            = match write_text (tdir ++ [nm]) content fs with
              | .error fsE => .error fsE
              | .ok fs₁ => writeTemplates tdir ctx rest fs₁ := by
          rw [hunfold, hc]
        have hstep : writeTemplates tdir ctx ((nm, tmpl) :: rest) fs
            = writeTemplates tdir ctx rest fs₁ := by
          rw [hstep0, hw]
        rw [hstep, ih fs₁ hqr, hfr]

theorem writeTemplates_ok_lookup (tdir : Path) (ctx : Ctx)
    (ts : List (String × String)) (fs fs₁ : FS)
    (hnodup : (ts.map Prod.fst).Nodup)
    (h : writeTemplates tdir ctx ts fs = .ok fs₁) :
    ∀ nm tmpl, (nm, tmpl) ∈ ts →
      ∃ c, pyFormat tmpl ctx = some c ∧
        fs₁ (tdir ++ [nm]) = some (FsEntry.fileE c) := by
  induction ts generalizing fs with
  | nil =>
    intro nm tmpl hmem
    exact absurd hmem (by simp)
  | cons pr rest ih =>
    rcases pr with ⟨nm₀, t₀⟩
    have hunfold : writeTemplates tdir ctx ((nm₀, t₀) :: rest) fs
        = match pyFormat t₀ ctx with
          | none => .error fs
          | some content =>
            match write_text (tdir ++ [nm₀]) content fs with
            | .error fsE => .error fsE
            | .ok fs₂ => writeTemplates tdir ctx rest fs₂ := rfl
    rw [hunfold] at h
    cases hc : pyFormat t₀ ctx with
    | none => rw [hc] at h; exact absurd h (by simp)
    | some c₀ =>
      rw [hc] at h
      have h3 : (match write_text (tdir ++ [nm₀]) c₀ fs with
          | Except.error fsE => (Except.error fsE : Except FS FS)
          | Except.ok fs₂ => writeTemplates tdir ctx rest fs₂) = .ok fs₁ := h
      cases hw : write_text (tdir ++ [nm₀]) c₀ fs with
      | error fsE => rw [hw] at h3; exact absurd h3 (by simp)
      | ok fsw =>
        rw [hw] at h3
        have h2 : writeTemplates tdir ctx rest fsw = .ok fs₁ := h3
        have hnodup' : (rest.map Prod.fst).Nodup := (List.nodup_cons.mp hnodup).2
        intro nm tmpl hmem
        rcases List.mem_cons.mp hmem with hhd | htl
        · have hnm : nm = nm₀ ∧ tmpl = t₀ := by
            constructor <;> injection hhd <;> simp_all
          rcases hnm with ⟨hnm, htm⟩
          subst hnm htm
          refine ⟨c₀, hc, ?_⟩
          have hqne : ∀ nm' ∈ rest.map Prod.fst, (tdir ++ [nm] : Path) ≠ tdir ++ [nm'] := by
            intro nm' hnm' he
            rcases append_cons_inj he with ⟨heq, _⟩
            exact (List.nodup_cons.mp hnodup).1 (heq ▸ hnm')
          have hfr := writeTemplates_frame tdir ctx rest fsw (tdir ++ [nm]) hqne
          rw [h2] at hfr
          have hfr2 : fs₁ (tdir ++ [nm]) = fsw (tdir ++ [nm]) := hfr
          rw [hfr2, write_text_ok hw, fsUpdate_self]
        · exact ih fsw hnodup' h2 nm tmpl htl

theorem writeRootFiles_fresh (b : Path) (ctx : Ctx) (names : List String) (fs : FS)
    (hdir : isDir fs b = true)
    (hnd : ∀ nm ∈ names, fs (b ++ [nm]) ≠ some FsEntry.dirE)
    (hlk : ∀ nm ∈ names, ∃ tmpl, lookupTemplate nm = some tmpl ∧
      (pyFormat tmpl ctx).isSome = true) :
    writeRootFiles b ctx names fs
      = .ok (applyW (names.map (fun nm =>
          (b ++ [nm], FsEntry.fileE (((lookupTemplate nm).bind
            (fun t => pyFormat t ctx)).getD (""))))) fs) := by
  induction names generalizing fs with
  | nil => rfl
  | cons nm rest ih =>
    obtain ⟨tmpl, hlk0, hsome⟩ := hlk nm (List.mem_cons_self _ _)
    obtain ⟨c, hc⟩ := Option.isSome_iff_exists.mp hsome
    have hunfold : writeRootFiles b ctx (nm :: rest) fs
        = match lookupTemplate nm with
          | none => .error fs
          | some tmpl =>
            match pyFormat tmpl ctx with
            | none => .error fs
            | some content =>
              match write_text (b ++ [nm]) content fs with
              | .error fsE => .error fsE
              | .ok fs₁ => writeRootFiles b ctx rest fs₁ := rfl
    have hw : write_text (b ++ [nm]) c fs
        = .ok (fsUpdate (b ++ [nm]) (FsEntry.fileE c) fs) :=
      write_text_of_cond (hnd nm (List.mem_cons_self _ _))
        (by rw [parentPath_concat]; exact hdir)
    have hstepA : writeRootFiles b ctx (nm :: rest) fs
        = match pyFormat tmpl ctx with
          | none => .error fs
          | some content =>
            match write_text (b ++ [nm]) content fs with
            | .error fsE => .error fsE
            | .ok fs₁ => writeRootFiles b ctx rest fs₁ := by
      rw [hunfold, hlk0]
    have hstep0 : writeRootFiles b ctx (nm :: rest) fs
        = match write_text (b ++ [nm]) c fs with
          | .error fsE => .error fsE
          | .ok fs₁ => writeRootFiles b ctx rest fs₁ := by
      rw [hstepA, hc]
    have hstep : writeRootFiles b ctx (nm :: rest) fs
        = writeRootFiles b ctx rest (fsUpdate (b ++ [nm]) (FsEntry.fileE c) fs) := by
      rw [hstep0, hw]
    rw [hstep]
    have hdir' : isDir (fsUpdate (b ++ [nm]) (FsEntry.fileE c) fs) b = true := by
      rw [isDir_congr (fsUpdate_ne _ _ (ne_append_cons b nm []))]
      exact hdir
    have hnd' : ∀ nm' ∈ rest, fsUpdate (b ++ [nm]) (FsEntry.fileE c) fs (b ++ [nm'])
        ≠ some FsEntry.dirE := by
      intro nm' hmem
      by_cases he : (b ++ [nm'] : Path) = b ++ [nm]
      · rw [he, fsUpdate_self]; simp
      · rw [fsUpdate_ne _ _ he]
        exact hnd nm' (List.mem_cons.mpr (Or.inr hmem))
    have hlk' : ∀ nm' ∈ rest, ∃ tmpl, lookupTemplate nm' = some tmpl ∧
        (pyFormat tmpl ctx).isSome = true := by
      intro nm' hmem
      exact hlk nm' (List.mem_cons.mpr (Or.inr hmem))
    have hrec := ih (fsUpdate (b ++ [nm]) (FsEntry.fileE c) fs) hdir' hnd' hlk'
    refine hrec.trans (congrArg Except.ok ?_)
    rw [List.map_cons, applyW_cons, hlk0]
    rw [show (Option.bind (some tmpl) fun t => pyFormat t ctx) = pyFormat tmpl ctx from rfl, hc]
    rfl

theorem writeRootFiles_frame (b : Path) (ctx : Ctx) (names : List String)
    (fs : FS) (q : Path) (hq : ∀ nm ∈ names, q ≠ b ++ [nm]) :
    stateOf (writeRootFiles b ctx names fs) q = fs q := by
  induction names generalizing fs with
  | nil => rfl
  | cons nm rest ih =>
    have hq0 : q ≠ b ++ [nm] := hq nm (by simp)
    have hqr : ∀ nm' ∈ rest, q ≠ b ++ [nm'] := by
      intro nm' hnm'
      exact hq nm' (by simp [hnm'])
    have hunfold : writeRootFiles b ctx (nm :: rest) fs
        = match lookupTemplate nm with
          | none => .error fs
          | some tmpl =>
            match pyFormat tmpl ctx with
            | none => .error fs
            | some content =>
              match write_text (b ++ [nm]) content fs with
              | .error fsE => .error fsE
              | .ok fs₁ => writeRootFiles b ctx rest fs₁ := rfl
    cases hlk0 : lookupTemplate nm with
    | none =>
      have hstep : writeRootFiles b ctx (nm :: rest) fs = .error fs := by
        rw [hunfold, hlk0]
      rw [hstep]
      rfl
    | some tmpl =>
      cases hc : pyFormat tmpl ctx with
      | none =>
        have hstepA : writeRootFiles b ctx (nm :: rest) fs
            = match pyFormat tmpl ctx with
              | none => .error fs
              | some content =>
                match write_text (b ++ [nm]) content fs with
                | .error fsE => .error fsE
                | .ok fs₁ => writeRootFiles b ctx rest fs₁ := by
          rw [hunfold, hlk0]
        have hstep : writeRootFiles b ctx (nm :: rest) fs = .error fs := by
          rw [hstepA, hc]
        rw [hstep]
        rfl
      | some content =>
        cases hw : write_text (b ++ [nm]) content fs with
        | error fsE =>
          have hstepA : writeRootFiles b ctx (nm :: rest) fs
              = match pyFormat tmpl ctx with
                | none => .error fs
                | some content2 =>
                  match write_text (b ++ [nm]) content2 fs with
                  | .error fsE => .error fsE
                  | .ok fs₁ => writeRootFiles b ctx rest fs₁ := by
            rw [hunfold, hlk0]
          have hstep0 : writeRootFiles b ctx (nm :: rest) fs
              = match write_text (b ++ [nm]) content fs with
                | .error fsE => .error fsE
                | .ok fs₁ => writeRootFiles b ctx rest fs₁ := by
            rw [hstepA, hc]
          have hstep : writeRootFiles b ctx (nm :: rest) fs = .error fsE := by
            rw [hstep0, hw]
          rw [hstep]
          have hfr := write_text_frame (b ++ [nm]) content fs q hq0
          rw [hw] at hfr
          exact hfr
        | ok fs₁ =>
          have hfr : fs₁ q = fs q := by
            have h2 := write_text_frame (b ++ [nm]) content fs q hq0
            rw [hw] at h2
            exact h2
          have hstepA : writeRootFiles b ctx (nm :: rest) fs
              = match pyFormat tmpl ctx with
                | none => .error fs
                | some content2 =>
                  match write_text (b ++ [nm]) content2 fs with
                  | .error fsE => .error fsE
                  | .ok fs₁ => writeRootFiles b ctx rest fs₁ := by
            rw [hunfold, hlk0]
          have hstep0 : writeRootFiles b ctx (nm :: rest) fs
              = match write_text (b ++ [nm]) content fs with
                | .error fsE => .error fsE
                | .ok fs₁ => writeRootFiles b ctx rest fs₁ := by
            rw [hstepA, hc]
          have hstep : writeRootFiles b ctx (nm :: rest) fs
              = writeRootFiles b ctx rest fs₁ := by
            rw [hstep0, hw]
          rw [hstep, ih fs₁ hqr, hfr]

theorem writeRootFiles_ok_lookup (b : Path) (ctx : Ctx) (names : List String)
    (fs fs₁ : FS) (hnodup : names.Nodup)
    (h : writeRootFiles b ctx names fs = .ok fs₁) :
    ∀ nm ∈ names, ∃ tmpl c, lookupTemplate nm = some tmpl ∧
      pyFormat tmpl ctx = some c ∧ fs₁ (b ++ [nm]) = some (FsEntry.fileE c) := by
  induction names generalizing fs with
  | nil =>
    intro nm hmem
    exact absurd hmem (by simp)
  | cons nm₀ rest ih =>
    have hunfold : writeRootFiles b ctx (nm₀ :: rest) fs
        = match lookupTemplate nm₀ with
          | none => .error fs
          | some tmpl =>
            match pyFormat tmpl ctx with
            | none => .error fs
            | some content =>
              match write_text (b ++ [nm₀]) content fs with
              | .error fsE => .error fsE
              | .ok fs₂ => writeRootFiles b ctx rest fs₂ := rfl
    rw [hunfold] at h
    cases hlk0 : lookupTemplate nm₀ with
    | none => rw [hlk0] at h; exact absurd h (by simp)
    | some tmpl₀ =>
      rw [hlk0] at h
      have h3 : (match pyFormat tmpl₀ ctx with
          | none => (Except.error fs : Except FS FS)
          | some content =>
            match write_text (b ++ [nm₀]) content fs with
            | Except.error fsE => Except.error fsE
            | Except.ok fs₂ => writeRootFiles b ctx rest fs₂) = .ok fs₁ := h
      cases hc : pyFormat tmpl₀ ctx with
      | none => rw [hc] at h3; exact absurd h3 (by simp)
      | some c₀ =>
        rw [hc] at h3
        have h4 : (match write_text (b ++ [nm₀]) c₀ fs with
            | Except.error fsE => (Except.error fsE : Except FS FS)
            | Except.ok fs₂ => writeRootFiles b ctx rest fs₂) = .ok fs₁ := h3
        cases hw : write_text (b ++ [nm₀]) c₀ fs with
        | error fsE => rw [hw] at h4; exact absurd h4 (by simp)
        | ok fsw =>
          rw [hw] at h4
          have h2 : writeRootFiles b ctx rest fsw = .ok fs₁ := h4
          intro nm hmem
          rcases List.mem_cons.mp hmem with hhd | htl
          · subst hhd
            refine ⟨tmpl₀, c₀, hlk0, hc, ?_⟩
            have hqne : ∀ nm' ∈ rest, (b ++ [nm] : Path) ≠ b ++ [nm'] := by
              intro nm' hnm' he
              rcases append_cons_inj he with ⟨heq, _⟩
              exact (List.nodup_cons.mp hnodup).1 (heq ▸ hnm')
            have hfr := writeRootFiles_frame b ctx rest fsw (b ++ [nm]) hqne
            rw [h2] at hfr
            have hfr2 : fs₁ (b ++ [nm]) = fsw (b ++ [nm]) := hfr
            rw [hfr2, write_text_ok hw, fsUpdate_self]
          · exact ih fsw (List.nodup_cons.mp hnodup).2 h2 nm htl

/-! ## The generate step on a fresh templates directory -/

/-- Writes performed by `generate_template_files`, in order. -/
def genWrites (b : Path) (e n : String) : List (Path × FsEntry) :=
  (b ++ [("templates")], FsEntry.dirE) ::
    TEMPLATES.map (fun pr => ((b ++ [("templates")]) ++ [pr.1],
      FsEntry.fileE ((pyFormat pr.2 (ctxGenerate e n)).getD ("")))) 

theorem generate_fresh (b : Path) (e n : String) (fs : FS)
    (hb : isDir fs b = true)
    (hfresh : ∀ t : Path, fs (b ++ ("templates") :: t) = none) :
    generate_template_files b e n fs = .ok (applyW (genWrites b e n) fs) := by
  have htdir : fs (b ++ [("templates")]) = none := hfresh []
  have hmk : mkdirExistOk (b ++ [("templates")]) fs
      = .ok (fsUpdate (b ++ [("templates")]) FsEntry.dirE fs) :=
    mkdirExistOk_fresh hb htdir
  have hunfold : generate_template_files b e n fs
      = match mkdirExistOk (b ++ [("templates")]) fs with
        | .error fsE => .error fsE
        | .ok fs₁ =>
          writeTemplates (b ++ [("templates")]) (ctxGenerate e n) TEMPLATES fs₁ := rfl
  rw [hunfold, hmk]
  have hdir' : isDir (fsUpdate (b ++ [("templates")]) FsEntry.dirE fs)
      (b ++ [("templates")]) = true := isDir_update_self ..
  have hnd' : ∀ nm, fsUpdate (b ++ [("templates")]) FsEntry.dirE fs
      ((b ++ [("templates")]) ++ [nm]) ≠ some FsEntry.dirE := by
    intro nm
    rw [fsUpdate_ne _ _ (ne_append_cons (b ++ [("templates")]) nm []).symm]
    rw [List.append_assoc]
    rw [show (([("templates")] : Path) ++ [nm]) = ("templates") :: [nm] from rfl]
    rw [hfresh [nm]]
    simp
  have hfmt : ∀ pr ∈ TEMPLATES, (pyFormat pr.2 (ctxGenerate e n)).isSome = true := by
    intro pr hpr
    have hpr2 : pr = (("entity_template.py"), entityTemplate)
        ∨ pr = (("repository_interface_template.py"), repositoryTemplate)
        ∨ pr = (("pyproject.toml"), pyprojectTemplate)
        ∨ pr = (("README.md"), readmeTemplate) := by
      simpa [TEMPLATES] using hpr
    rcases hpr2 with h | h | h | h
    · rw [h]; exact pyFormat_isSome_entity_gen e n
    · rw [h]; exact pyFormat_isSome_repository_gen e n
    · rw [h]; exact pyFormat_isSome_pyproject_gen e n
    · rw [h]; exact pyFormat_isSome_readme_gen e n
  have hw := writeTemplates_fresh (b ++ [("templates")]) (ctxGenerate e n)
    TEMPLATES (fsUpdate (b ++ [("templates")]) FsEntry.dirE fs) hdir' hnd' hfmt
  refine hw.trans (congrArg Except.ok ?_)
  rw [show genWrites b e n = (b ++ [("templates")], FsEntry.dirE) ::
    TEMPLATES.map (fun pr => ((b ++ [("templates")]) ++ [pr.1],
      FsEntry.fileE ((pyFormat pr.2 (ctxGenerate e n)).getD ("")))) from rfl]
  rw [applyW_cons]

/-! ## The two rendering contexts agree -/

theorem ctxLookup_gen_eq_root (e n : String) (nm : List Char) :
    ctxLookup (ctxGenerate e n) nm = ctxLookup (ctxRoot e n) nm := by
  have hL : ctxLookup (ctxGenerate e n) nm
      = (if nm = ("entity_name").data then some e
         else if nm = ("entity_name_lower").data then some (pyLower e)
         else if nm = ("project_name").data then some n else none) := rfl
  have hR : ctxLookup (ctxRoot e n) nm
      = (if nm = ("project_name").data then some n
         else if nm = ("entity_name").data then some e
         else if nm = ("entity_name_lower").data then some (pyLower e)
         else none) := rfl
  have d13 : ("entity_name").data ≠ ("project_name").data := by decide
  have d23 : ("entity_name_lower").data ≠ ("project_name").data := by decide
  rw [hL, hR]
  by_cases h1 : nm = ("entity_name").data
  · rw [if_pos h1, if_neg (fun hc => d13 (h1 ▸ hc)), if_pos h1]
  · rw [if_neg h1]
    by_cases h2 : nm = ("entity_name_lower").data
    · rw [if_pos h2, if_neg (fun hc => d23 (h2 ▸ hc)), if_neg h1, if_pos h2]
    · rw [if_neg h2]
      by_cases h3 : nm = ("project_name").data
      · rw [if_pos h3, if_pos h3]
      · rw [if_neg h3, if_neg h3, if_neg h1, if_neg h2]

theorem renderPieces_ctx_congr {ctx₁ ctx₂ : Ctx}
    (h : ∀ nm, ctxLookup ctx₁ nm = ctxLookup ctx₂ nm) :
    ∀ ps, renderPieces ctx₁ ps = renderPieces ctx₂ ps := by
  intro ps
  induction ps with
  | nil => rfl
  | cons piece rest ih =>
    cases piece with
    | lit l =>
      rw [show renderPieces ctx₁ (.lit l :: rest)
          = (renderPieces ctx₁ rest).map (fun o => l ++ o) from rfl,
        show renderPieces ctx₂ (.lit l :: rest)
          = (renderPieces ctx₂ rest).map (fun o => l ++ o) from rfl, ih]
    | fieldP nm =>
      rw [show renderPieces ctx₁ (.fieldP nm :: rest)
          = (match ctxLookup ctx₁ nm, renderPieces ctx₁ rest with
             | some v, some o => some (v.data ++ o)
             | _, _ => none) from rfl,
        show renderPieces ctx₂ (.fieldP nm :: rest)
          = (match ctxLookup ctx₂ nm, renderPieces ctx₂ rest with
             | some v, some o => some (v.data ++ o)
             | _, _ => none) from rfl, h nm, ih]

theorem pyFormat_gen_eq_root (t : String) (e n : String) :
    pyFormat t (ctxGenerate e n) = pyFormat t (ctxRoot e n) := by
  unfold pyFormat
  cases parseFmt t.data with
  | none => rfl
  | some ps =>
    rw [show (some ps).bind (fun ps => (renderPieces (ctxGenerate e n) ps).map String.mk)
        = (renderPieces (ctxGenerate e n) ps).map String.mk from rfl,
      show (some ps).bind (fun ps => (renderPieces (ctxRoot e n) ps).map String.mk)
        = (renderPieces (ctxRoot e n) ps).map String.mk from rfl,
      renderPieces_ctx_congr (ctxLookup_gen_eq_root e n) ps]

/-! ## Full characterization of a fresh run of the generator -/

/-- Writes performed by the root-file loop of `main`, in order. -/
def rootWrites (b : Path) (e n : String) : List (Path × FsEntry) :=
  [("pyproject.toml"), ("README.md")].map (fun nm =>
    (b ++ [nm], FsEntry.fileE (((lookupTemplate nm).bind
      (fun t => pyFormat t (ctxRoot e n))).getD (""))))

/-- Every write a successful fresh run performs, in order. -/
def allWrites (root : Path) (e n : String) : List (Path × FsEntry) :=
  (root, FsEntry.dirE) ::
    (flattenS root PROJECT_STRUCTURE ++ (genWrites root e n ++ rootWrites root e n))

/-- Paths of the structure specification relative to the project root. -/
def structureSuffixes : List Path := (flattenS [] PROJECT_STRUCTURE).map Prod.fst

/-- All paths (relative to the project root) that a fresh run creates. -/
def generatedSuffixes : List Path :=
  [] :: (structureSuffixes ++ ([("templates")] ::
    (TEMPLATES.map (fun pr => [("templates"), pr.1]) ++
      [[("pyproject.toml")], [("README.md")]])))

theorem nodupS_PS : nodupS PROJECT_STRUCTURE = true := by decide

theorem topNames_PS :
    topNames PROJECT_STRUCTURE = [("src"), ("tests"), ("docs")] := rfl

theorem mem_genWrites_shape {b : Path} {e n : String} {q : Path}
    (h : q ∈ (genWrites b e n).map Prod.fst) :
    ∃ t, q = b ++ ("templates") :: t := by
  rcases List.mem_map.mp h with ⟨pe, hpe, hfst⟩
  rcases List.mem_cons.mp hpe with h0 | h1
  · exact ⟨[], by rw [← hfst, h0]⟩
  · rcases List.mem_map.mp h1 with ⟨pr, _, hpe2⟩
    refine ⟨[pr.1], ?_⟩
    rw [← hfst, ← hpe2]
    simp

theorem mem_rootWrites_shape {b : Path} {e n : String} {q : Path}
    (h : q ∈ (rootWrites b e n).map Prod.fst) :
    q = b ++ [("pyproject.toml")] ∨ q = b ++ [("README.md")] := by
  rcases List.mem_map.mp h with ⟨pe, hpe, hfst⟩
  have hpe2 : pe = (b ++ [("pyproject.toml")], FsEntry.fileE (((lookupTemplate ("pyproject.toml")).bind
        (fun t => pyFormat t (ctxRoot e n))).getD ("")))
      ∨ pe = (b ++ [("README.md")], FsEntry.fileE (((lookupTemplate ("README.md")).bind
        (fun t => pyFormat t (ctxRoot e n))).getD (""))) := by
    simpa [rootWrites] using hpe
  rcases hpe2 with h2 | h2
  · exact Or.inl (by rw [← hfst, h2])
  · exact Or.inr (by rw [← hfst, h2])

theorem pyMain_fresh (prog n e : String) (fs : FS)
    (hfresh : ∀ s : Path, fs (n :: s) = none) :
    pyMain [prog, n, e] fs = (0, applyW (allWrites [n] e n) fs) := by
  have hroot : fs [n] = none := hfresh []
  have hex : pathExists fs [n] = false := pathExists_false_of_none (by simp) hroot
  have hmk : mkdirSimple [n] fs = .ok (fsUpdate [n] FsEntry.dirE fs) := by
    unfold mkdirSimple
    rw [if_neg (by simp [hex]), if_pos (by rw [show parentPath [n] = ([] : Path) from rfl]; rfl)]
  set fs₁ := fsUpdate [n] FsEntry.dirE fs with hfs₁
  have hb₁ : isDir fs₁ [n] = true := isDir_update_self ..
  have hfresh₁ : ∀ q ∈ (flattenS [n] PROJECT_STRUCTURE).map Prod.fst, fs₁ q = none := by
    intro q hq
    rcases mem_flattenS_shape hq with ⟨nm, t, _, hqeq⟩
    have hne : q ≠ [n] := by
      rw [hqeq]
      exact (ne_append_cons [n] nm t).symm
    rw [hfs₁, fsUpdate_ne _ _ hne, hqeq]
    exact hfresh (nm :: t)
  have hcreate := createS_fresh [n] PROJECT_STRUCTURE fs₁ hb₁ hfresh₁ nodupS_PS
  set fs₂ := applyW (flattenS [n] PROJECT_STRUCTURE) fs₁ with hfs₂
  have hfs₂root : fs₂ [n] = some FsEntry.dirE := by
    rw [hfs₂, applyW_frame (base_not_mem_flattenS [n] PROJECT_STRUCTURE), hfs₁, fsUpdate_self]
  have hb₂ : isDir fs₂ [n] = true := isDir_of_lookup hfs₂root
  have hfreshT : ∀ t : Path, fs₂ ([n] ++ ("templates") :: t) = none := by
    intro t
    have hnot : ([n] ++ ("templates") :: t : Path)
        ∉ (flattenS [n] PROJECT_STRUCTURE).map Prod.fst := by
      intro hmem
      rcases mem_flattenS_shape hmem with ⟨nm, t', hnm, hqeq⟩
      rcases append_cons_inj hqeq with ⟨hnmeq, _⟩
      rw [topNames_PS] at hnm
      rw [← hnmeq] at hnm
      exact absurd hnm (by decide)
    rw [hfs₂, applyW_frame hnot, hfs₁,
      fsUpdate_ne _ _ (ne_append_cons [n] ("templates") t).symm]
    exact hfresh (("templates") :: t)
  have hgen := generate_fresh [n] e n fs₂ hb₂ hfreshT
  set fs₃ := applyW (genWrites [n] e n) fs₂ with hfs₃
  have hnotg : ([n] : Path) ∉ (genWrites [n] e n).map Prod.fst := by
    intro hmem
    rcases mem_genWrites_shape hmem with ⟨t, ht⟩
    exact ne_append_cons [n] ("templates") t ht
  have hfs₃root : fs₃ [n] = some FsEntry.dirE := by
    rw [hfs₃, applyW_frame hnotg]
    exact hfs₂root
  have hb₃ : isDir fs₃ [n] = true := isDir_of_lookup hfs₃root
  have hrootfresh : ∀ nm ∈ [("pyproject.toml"), ("README.md")],
      fs₃ ([n] ++ [nm]) = none := by
    intro nm hnm
    have hnm2 : nm = ("pyproject.toml") ∨ nm = ("README.md") := by simpa using hnm
    have hng : ([n] ++ [nm] : Path) ∉ (genWrites [n] e n).map Prod.fst := by
      intro hmem
      rcases mem_genWrites_shape hmem with ⟨t, ht⟩
      rcases append_cons_inj ht with ⟨hnmeq, _⟩
      rcases hnm2 with h | h <;> rw [h] at hnmeq <;> exact absurd hnmeq (by decide)
    have hns : ([n] ++ [nm] : Path) ∉ (flattenS [n] PROJECT_STRUCTURE).map Prod.fst := by
      intro hmem
      rcases mem_flattenS_shape hmem with ⟨nm', t', hnm', hqeq⟩
      rcases append_cons_inj hqeq with ⟨hnmeq, _⟩
      rw [topNames_PS] at hnm'
      rw [← hnmeq] at hnm'
      rcases hnm2 with h | h <;> rw [h] at hnm' <;> exact absurd hnm' (by decide)
    rw [hfs₃, applyW_frame hng, hfs₂, applyW_frame hns, hfs₁,
      fsUpdate_ne _ _ (ne_append_cons [n] nm []).symm]
    exact hfresh [nm]
  have hroots := writeRootFiles_fresh [n] (ctxRoot e n)
    [("pyproject.toml"), ("README.md")] fs₃ hb₃
    (by intro nm hnm; rw [hrootfresh nm hnm]; simp)
    (by
      intro nm hnm
      have hnm2 : nm = ("pyproject.toml") ∨ nm = ("README.md") := by simpa using hnm
      rcases hnm2 with h | h
      · exact ⟨pyprojectTemplate, by rw [h]; rfl, pyFormat_isSome_pyproject_root e n⟩
      · exact ⟨readmeTemplate, by rw [h]; rfl, pyFormat_isSome_readme_root e n⟩)
  have ht0 : tryBlock [n] e n fs₁
      = match create_directory_structure [n] PROJECT_STRUCTURE fs₁ with
        | .error fsE => .error fsE
        | .ok fsa =>
          match generate_template_files [n] e n fsa with
          | .error fsE => .error fsE
          | .ok fsb =>
            writeRootFiles [n] (ctxRoot e n) [("pyproject.toml"), ("README.md")] fsb := rfl
  have ht1 : tryBlock [n] e n fs₁
      = match generate_template_files [n] e n fs₂ with
        | .error fsE => .error fsE
        | .ok fsb =>
          writeRootFiles [n] (ctxRoot e n) [("pyproject.toml"), ("README.md")] fsb := by
    rw [ht0, hcreate]
  have ht2 : tryBlock [n] e n fs₁
      = writeRootFiles [n] (ctxRoot e n) [("pyproject.toml"), ("README.md")] fs₃ := by
    rw [ht1, hgen]
  have ht3 : tryBlock [n] e n fs₁
      = .ok (applyW (rootWrites [n] e n) fs₃) := by
    rw [ht2, hroots]
    rfl
  have hm0 : pyMain [prog, n, e] fs
      = if pathExists fs [n] then (1, fs)
        else
          match mkdirSimple [n] fs with
          | .error fsE => (1, fsE)
          | .ok fsx =>
            match tryBlock [n] e n fsx with
            | .ok fsy => (0, fsy)
            | .error fsE =>
              (1, if pathExists fsE [n] then rmtree [n] fsE else fsE) := rfl
  have hm1 : pyMain [prog, n, e] fs
      = match tryBlock [n] e n fs₁ with
        | .ok fsy => (0, fsy)
        | .error fsE => (1, if pathExists fsE [n] then rmtree [n] fsE else fsE) := by
    rw [hm0, if_neg (by simp [hex]), hmk]
  have hm2 : pyMain [prog, n, e] fs = (0, applyW (rootWrites [n] e n) fs₃) := by
    rw [hm1, ht3]
  rw [hm2]
  rw [show allWrites [n] e n = ([n], FsEntry.dirE) ::
    (flattenS [n] PROJECT_STRUCTURE ++ (genWrites [n] e n ++ rootWrites [n] e n)) from rfl]
  rw [applyW_cons, applyW_append, applyW_append]

/-- Keys of `allWrites` are exactly the generated suffixes below the root. -/
theorem allWrites_keys (nm e n : String) :
    (allWrites [nm] e n).map Prod.fst = generatedSuffixes.map (fun s => nm :: s) := by
  have hshift : flattenS [nm] PROJECT_STRUCTURE
      = (flattenS [] PROJECT_STRUCTURE).map (fun pe => ([nm] ++ pe.1, pe.2)) := by
    have h := flattenS_shift [nm] [] PROJECT_STRUCTURE
    rwa [List.append_nil] at h
  simp only [allWrites, genWrites, rootWrites, generatedSuffixes, structureSuffixes,
    hshift, List.map_map, List.map_cons, List.map_append, List.map_nil]
  rfl

/-! ## Claim theorems -/

/-- Claim C5: if the path named by the project name already exists when the
entry point runs with exactly two arguments, no filesystem mutation occurs
and the process exits with status 1. -/
theorem c5_preexisting (prog n e : String) (fs : FS)
    (h : pathExists fs [n] = true) :
    pyMain [prog, n, e] fs = (1, fs) := by
  have hm0 : pyMain [prog, n, e] fs
      = if pathExists fs [n] then (1, fs)
        else
          match mkdirSimple [n] fs with
          | .error fsE => (1, fsE)
          | .ok fsx =>
            match tryBlock [n] e n fsx with
            | .ok fsy => (0, fsy)
            | .error fsE =>
              (1, if pathExists fsE [n] then rmtree [n] fsE else fsE) := rfl
  rw [hm0, if_pos (by simp [h])]

/-- Witness for C5 at a concrete pre-existing directory. -/
theorem c5_preexisting_witness :
    pyMain [("prog"), ("shop"), ("Order")] (fsUpdate [("shop")] FsEntry.dirE emptyFS)
      = (1, fsUpdate [("shop")] FsEntry.dirE emptyFS) :=
  c5_preexisting ("prog") ("shop") ("Order") _ (by decide)

/-- Claim C8: any argument vector that does not consist of exactly two
positional arguments after the program name makes the entry point exit
with status 1 without touching the filesystem. -/
theorem c8_usage (argv : List String) (fs : FS) (h : argv.length ≠ 3) :
    pyMain argv fs = (1, fs) := by
  match argv with
  | [] => rfl
  | [_] => rfl
  | [_, _] => rfl
  | [_, _, _] => exact absurd rfl h
  | _ :: _ :: _ :: _ :: _ => rfl

/-- Witness for C8 at the empty argument vector. -/
theorem c8_usage_witness : pyMain [] emptyFS = (1, emptyFS) :=
  c8_usage [] emptyFS (by decide)

/-- Claim C4: if the `try` block (structure materialization, template
rendering, root files) raises after the project root was created, the
run exits with status 1 and the project root no longer exists. -/
theorem c4_cleanup (prog n e : String) (fs fsE : FS)
    (hex : pathExists fs [n] = false)
    (herr : tryBlock [n] e n (fsUpdate [n] FsEntry.dirE fs) = .error fsE) :
    (pyMain [prog, n, e] fs).1 = 1 ∧ (pyMain [prog, n, e] fs).2 [n] = none := by
  have hmk : mkdirSimple [n] fs = .ok (fsUpdate [n] FsEntry.dirE fs) := by
    unfold mkdirSimple
    rw [if_neg (by simp [hex]),
      if_pos (by rw [show parentPath [n] = ([] : Path) from rfl]; rfl)]
  have hm0 : pyMain [prog, n, e] fs
      = if pathExists fs [n] then (1, fs)
        else
          match mkdirSimple [n] fs with
          | .error fsE => (1, fsE)
          | .ok fsx =>
            match tryBlock [n] e n fsx with
            | .ok fsy => (0, fsy)
            | .error fsE =>
              (1, if pathExists fsE [n] then rmtree [n] fsE else fsE) := rfl
  have hm1 : pyMain [prog, n, e] fs
      = match tryBlock [n] e n (fsUpdate [n] FsEntry.dirE fs) with
        | .ok fsy => (0, fsy)
        | .error fsE =>
          (1, if pathExists fsE [n] then rmtree [n] fsE else fsE) := by
    rw [hm0, if_neg (by simp [hex]), hmk]
  have hm2 : pyMain [prog, n, e] fs
      = (1, if pathExists fsE [n] then rmtree [n] fsE else fsE) := by
    rw [hm1, herr]
  rw [hm2]
  refine ⟨rfl, ?_⟩
  by_cases hpe : pathExists fsE [n] = true
  · rw [show ((1 : Nat), if pathExists fsE [n] then rmtree [n] fsE else fsE).2
        = if pathExists fsE [n] then rmtree [n] fsE else fsE from rfl]
    rw [if_pos (by simp [hpe])]
    rw [show rmtree [n] fsE [n]
        = if ([n] : Path).isPrefixOf [n] then none else fsE [n] from rfl]
    rw [if_pos (by simp [List.isPrefixOf])]
  · rw [show ((1 : Nat), if pathExists fsE [n] then rmtree [n] fsE else fsE).2
        = if pathExists fsE [n] then rmtree [n] fsE else fsE from rfl]
    rw [if_neg (by simp [hpe])]
    have h2 : (fsE [n]).isSome = false := by
      rw [pathExists] at hpe
      simp at hpe
      simpa using hpe
    cases hlk : fsE [n] with
    | none => rfl
    | some v => rw [hlk] at h2; exact absurd h2 (by simp)

/-- Pre-existing state used to exercise the cleanup path: a stray file
below the (absent) project root makes the materializer raise. -/
def c4fs : FS :=
  fun q => if q = [("p"), ("src")] then some (FsEntry.fileE ("x")) else none

/-- Witness for C4 at a concrete failing run. -/
theorem c4_cleanup_witness :
    (pyMain [("prog"), ("p"), ("E")] c4fs).1 = 1
      ∧ (pyMain [("prog"), ("p"), ("E")] c4fs).2 [("p")] = none :=
  c4_cleanup ("prog") ("p") ("E") c4fs
    (stateOf (tryBlock [("p")] ("E") ("p") (fsUpdate [("p")] FsEntry.dirE c4fs)))
    (by decide) (by rfl)

/-- Claim C6: re-running the structure materializer over a tree a
successful run has already produced raises no exception and leaves every
file exactly as it was: the second run returns the same state. -/
theorem c6_idempotent (base : Path) (fs fs₁ : FS)
    (hb : isDir fs base = true)
    (h : create_directory_structure base PROJECT_STRUCTURE fs = .ok fs₁) :
    create_directory_structure base PROJECT_STRUCTURE fs₁ = .ok fs₁ := by
  have hpost := createS_post base PROJECT_STRUCTURE fs fs₁ hb nodupS_PS h
  have hb₁ : isDir fs₁ base = true := by
    have hfr := createS_frame base PROJECT_STRUCTURE fs base hb
      (base_not_mem_flattenS base PROJECT_STRUCTURE)
    rw [h] at hfr
    have hfr2 : fs₁ base = fs base := hfr
    exact (isDir_congr hfr2).trans hb
  exact createS_stable base PROJECT_STRUCTURE fs₁ hb₁ hpost

/-- Initial state for the C6 witness: just the project root directory. -/
def c6fs : FS := fsUpdate [("p")] FsEntry.dirE emptyFS

/-- Witness for C6 at a concrete first run. -/
theorem c6_idempotent_witness :
    create_directory_structure [("p")] PROJECT_STRUCTURE
        (stateOf (create_directory_structure [("p")] PROJECT_STRUCTURE c6fs))
      = .ok (stateOf (create_directory_structure [("p")] PROJECT_STRUCTURE c6fs)) :=
  c6_idempotent [("p")] c6fs _ (by decide) (by rfl)

/-- Claim C10 counterexample: materializing under root `a/b` when `a`
does not exist creates the ancestor directory `a`, a path not named by
any entry of the structure specification, so the claim as stated fails. -/
theorem c10_counterexample :
    stateOf (create_directory_structure [("a"), ("b")] PROJECT_STRUCTURE emptyFS)
        [("a")] ≠ emptyFS [("a")]
      ∧ [("a")] ∉ (flattenS [("a"), ("b")] PROJECT_STRUCTURE).map Prod.fst := by
  decide

/-- Claim C10 (amended): provided the root path is an existing directory,
the structure materializer leaves every path that is not an entry of the
structure specification unchanged, whether it succeeds or raises. -/
theorem c10_frame (base : Path) (st : PStruct) (fs : FS) (q : Path)
    (hb : isDir fs base = true)
    (hq : q ∉ (flattenS base st).map Prod.fst) :
    stateOf (create_directory_structure base st fs) q = fs q :=
  createS_frame base st fs q hb hq

/-- Initial state for the C10 witness. -/
def c10fs : FS := fsUpdate [("p")] FsEntry.dirE emptyFS

/-- Witness for C10 at a concrete run and untouched path. -/
theorem c10_frame_witness :
    stateOf (create_directory_structure [("p")] PROJECT_STRUCTURE c10fs) [("zzz")]
      = c10fs [("zzz")] :=
  c10_frame [("p")] PROJECT_STRUCTURE c10fs [("zzz")] (by decide) (by decide)

/-- Content of the one non-empty file in the structure specification. -/
def docsReadmeContent : String := "# 项目文档\n\n请在此处添加项目特定的文档。\n"

/-- Pre-existing state for the C3 counterexample: the target of the
docs/README.md entry exists as a directory. -/
def c3fs : FS := fun q =>
  if q = [("b"), ("docs"), ("README.md")] then some FsEntry.dirE
  else if q = [("b"), ("docs")] then some FsEntry.dirE
  else if q = [("b")] then some FsEntry.dirE
  else none

/-- Claim C3 counterexample: for the docs/README.md entry and a
pre-existing state in which the target is a directory, the target is
absent-or-content-non-empty, yet the materializer raises instead of
writing, so the stated if-and-only-if fails. -/
theorem c3_counterexample :
    (([("b"), ("docs"), ("README.md")], FsEntry.fileE docsReadmeContent)
        ∈ flattenS [("b")] PROJECT_STRUCTURE)
      ∧ c3fs [("b"), ("docs"), ("README.md")] ≠ none
      ∧ docsReadmeContent ≠ ("")
      ∧ stateOf (materializeFile [("b"), ("docs"), ("README.md")] docsReadmeContent c3fs)
          [("b"), ("docs"), ("README.md")] ≠ some (FsEntry.fileE docsReadmeContent) := by
  decide

/-- Every file entry of the structure specification is the empty string
or the docs readme content. -/
theorem flatten_file_contents : ∀ pe ∈ flattenS [] PROJECT_STRUCTURE,
    pe.2 = FsEntry.dirE ∨ pe.2 = FsEntry.fileE ("")
      ∨ pe.2 = FsEntry.fileE docsReadmeContent := by
  decide

/-- Claim C3 (amended): for every file entry of the structure
specification and every pre-existing state in which the entry's parent is
a directory and the target is not a directory, the content is non-empty
exactly when it does not strip to nothing, and the materializer writes it
if and only if the target is absent or the content is non-empty,
otherwise leaving the state unchanged. -/
theorem c3_materialize_file (b p : Path) (c : String) (fs : FS)
    (hmem : (p, FsEntry.fileE c) ∈ flattenS b PROJECT_STRUCTURE)
    (hparent : isDir fs (parentPath p) = true)
    (hnotdir : fs p ≠ some FsEntry.dirE) :
    (pyNonBlank c = true ↔ c ≠ ("")) ∧
    materializeFile p c fs
      = .ok (if fs p = none ∨ c ≠ ("") then fsUpdate p (FsEntry.fileE c) fs else fs) := by
  have hne : p ≠ [] := by
    rcases flattenS_shape b PROJECT_STRUCTURE _ hmem with ⟨nm, t, _, hp⟩
    rw [show ((p, FsEntry.fileE c) : Path × FsEntry).1 = p from rfl] at hp
    rw [hp]
    simp
  have hcontent : c = ("") ∨ c = docsReadmeContent := by
    have hshift : flattenS b PROJECT_STRUCTURE
        = (flattenS [] PROJECT_STRUCTURE).map (fun pe => (b ++ pe.1, pe.2)) := by
      have h := flattenS_shift b [] PROJECT_STRUCTURE
      rwa [List.append_nil] at h
    rw [hshift] at hmem
    rcases List.mem_map.mp hmem with ⟨pe', hpe', heq⟩
    have h2 := flatten_file_contents pe' hpe'
    have hsnd : pe'.2 = FsEntry.fileE c := by
      have := congrArg Prod.snd heq
      simpa using this
    rcases h2 with h | h | h
    · rw [h] at hsnd; exact absurd hsnd (by simp)
    · rw [h] at hsnd
      injection hsnd with h3
      exact Or.inl h3.symm
    · rw [h] at hsnd
      injection hsnd with h3
      exact Or.inr h3.symm
  have hiff : pyNonBlank c = true ↔ c ≠ ("") := by
    rcases hcontent with h | h <;> rw [h] <;> simp <;> decide
  refine ⟨hiff, ?_⟩
  rw [materializeFile_of_parentDir hparent]
  cases hlk : fs p with
  | none =>
    have hx : pathExists fs p = false := pathExists_false_of_none hne hlk
    rw [hx, if_pos (by simp)]
    rw [write_text_of_cond hnotdir hparent]
    rw [if_pos (Or.inl rfl)]
  | some v =>
    have hx : pathExists fs p = true := pathExists_of_isSome (by simp [hlk])
    rw [hx]
    by_cases hnb : pyNonBlank c = true
    · rw [if_pos (by simp [hnb])]
      rw [write_text_of_cond hnotdir hparent]
      rw [if_pos (Or.inr (hiff.mp hnb))]
    · rw [if_neg (by simp [Bool.not_eq_true] at hnb ⊢; exact hnb)]
      have hceq : c = ("") := by
        by_contra hcne
        exact hnb (hiff.mpr hcne)
      rw [if_neg (by simp [hceq])]

/-- Pre-existing state for the C3 witness: root and src directories. -/
def c3wfs : FS := fun q =>
  if q = [("b")] then some FsEntry.dirE
  else if q = [("b"), ("src")] then some FsEntry.dirE
  else none

/-- Witness for C3 at the src/__init__.py entry. -/
theorem c3_materialize_file_witness :
    (pyNonBlank ("") = true ↔ ("") ≠ ("")) ∧
    materializeFile [("b"), ("src"), ("__init__.py")] ("") c3wfs
      = .ok (if c3wfs [("b"), ("src"), ("__init__.py")] = none ∨ ("") ≠ ("")
          then fsUpdate [("b"), ("src"), ("__init__.py")] (FsEntry.fileE ("")) c3wfs
          else c3wfs) :=
  c3_materialize_file [("b")] [("b"), ("src"), ("__init__.py")] ("") c3wfs
    (by decide) (by decide) (by decide)

/-- Path set asserted by claim C1, written from the claim's words: the
structure specification, the two rendered code templates under
templates/ (and the templates directory itself), and the two root files
-- notably without templates/pyproject.toml and templates/README.md. -/
def c1ClaimedSuffixes : List Path :=
  [] :: (structureSuffixes ++
    [[("templates")],
     [("templates"), ("entity_template.py")],
     [("templates"), ("repository_interface_template.py")],
     [("pyproject.toml")], [("README.md")]])

/-- Claim C1 counterexample: a fresh run materializes
templates/pyproject.toml, a path outside the set the claim asserts to be
exactly the produced tree, so the claimed set equality fails. -/
theorem c1_counterexample :
    (pyMain [("prog"), ("shop"), ("Order")] emptyFS).2
        [("shop"), ("templates"), ("pyproject.toml")] ≠ none
      ∧ [("templates"), ("pyproject.toml")] ∉ c1ClaimedSuffixes := by
  decide

/-- Claim C1 (amended): for every project name (an atomic relative path
component) with nothing on disk at or below it, and every entity name,
the run exits 0 and produces below the root exactly the structure paths,
the templates directory with all four rendered catalog files, and
pyproject.toml and README.md at the root; every path not below the root
is untouched. -/
theorem c1_path_set (prog n e : String) (fs : FS)
    (hfresh : ∀ s : Path, fs (n :: s) = none) :
    (pyMain [prog, n, e] fs).1 = 0 ∧
    (∀ s : Path, ((pyMain [prog, n, e] fs).2 (n :: s)).isSome = true
      ↔ s ∈ generatedSuffixes) ∧
    (∀ q : Path, ¬ (([n] : Path).isPrefixOf q = true)
      → (pyMain [prog, n, e] fs).2 q = fs q) := by
  have hm := pyMain_fresh prog n e fs hfresh
  rw [hm]
  refine ⟨rfl, ?_, ?_⟩
  · intro s
    constructor
    · intro hsome
      by_cases hmem : (n :: s : Path) ∈ (allWrites [n] e n).map Prod.fst
      · rw [allWrites_keys] at hmem
        rcases List.mem_map.mp hmem with ⟨s', hs', heq⟩
        have hss : s' = s := by injection heq
        rwa [← hss]
      · rw [show ((0 : Nat), applyW (allWrites [n] e n) fs).2
            = applyW (allWrites [n] e n) fs from rfl] at hsome
        rw [applyW_frame hmem, hfresh s] at hsome
        exact absurd hsome (by simp)
    · intro hmem
      have hmem2 : (n :: s : Path) ∈ (allWrites [n] e n).map Prod.fst := by
        rw [allWrites_keys]
        exact List.mem_map.mpr ⟨s, hmem, rfl⟩
      rcases (applyW_mem hmem2 : ∃ v, applyW (allWrites [n] e n) fs (n :: s) = some v)
        with ⟨v, hv⟩
      rw [show ((0 : Nat), applyW (allWrites [n] e n) fs).2
          = applyW (allWrites [n] e n) fs from rfl, hv]
      rfl
  · intro q hq
    have hnotmem : q ∉ (allWrites [n] e n).map Prod.fst := by
      intro hmem
      rw [allWrites_keys] at hmem
      rcases List.mem_map.mp hmem with ⟨s', _, heq⟩
      apply hq
      rw [← heq]
      simp [List.isPrefixOf]
    rw [show ((0 : Nat), applyW (allWrites [n] e n) fs).2
        = applyW (allWrites [n] e n) fs from rfl]
    exact applyW_frame hnotmem

/-- Witness for C1 (amended) at a concrete fresh run. -/
theorem c1_path_set_witness :
    ((pyMain [("prog"), ("shop"), ("Order")] emptyFS).2
      [("shop"), ("src")]).isSome = true :=
  ((c1_path_set ("prog") ("shop") ("Order") emptyFS (fun _ => rfl)).2.1
    [("src")]).mpr (by decide)

/-- Render a template under a context, demanding success and the absence
of any remaining brace-delimited placeholder token in the output. -/
def renderNoPH (tmpl : String) (ctx : Ctx) : Bool :=
  match pyFormat tmpl ctx with
  | some out => !(hasPH out.data)
  | none => false

/-- Lookup showing that a rendered output file keeps a placeholder. -/
def hasPHFile (fs : FS) (p : Path) : Bool :=
  match fs p with
  | some (FsEntry.fileE c) => hasPH c.data
  | _ => false

/-- Root directory used by the C2 counterexample. -/
def c2fs : FS := fsUpdate [("p")] FsEntry.dirE emptyFS

/-- Claim C2 counterexample: when the supplied entity name itself is the
brace-delimited token \x7bx\x7d, the rendered entity template written by
the template renderer still contains a literal brace-delimited
placeholder, so the claim quantified over every entity name fails. -/
theorem c2_counterexample :
    hasPHFile (stateOf (generate_template_files [("p")] ("\x7bx\x7d") ("proj") c2fs))
      [("p"), ("templates"), ("entity_template.py")] = true := by
  decide

theorem ctxGenerate_values {e n : String} {nm : List Char} {v : String}
    (h : ctxLookup (ctxGenerate e n) nm = some v) :
    v = e ∨ v = pyLower e ∨ v = n := by
  rw [show ctxLookup (ctxGenerate e n) nm
      = (if nm = ("entity_name").data then some e
         else if nm = ("entity_name_lower").data then some (pyLower e)
         else if nm = ("project_name").data then some n else none) from rfl] at h
  split at h
  · exact Or.inl (by injection h with hv; exact hv.symm)
  · split at h
    · exact Or.inr (Or.inl (by injection h with hv; exact hv.symm))
    · split at h
      · exact Or.inr (Or.inr (by injection h with hv; exact hv.symm))
      · exact absurd h (by simp)

theorem ctxRoot_values {e n : String} {nm : List Char} {v : String}
    (h : ctxLookup (ctxRoot e n) nm = some v) :
    v = e ∨ v = pyLower e ∨ v = n := by
  rw [show ctxLookup (ctxRoot e n) nm
      = (if nm = ("project_name").data then some n
         else if nm = ("entity_name").data then some e
         else if nm = ("entity_name_lower").data then some (pyLower e)
         else none) from rfl] at h
  split at h
  · exact Or.inr (Or.inr (by injection h with hv; exact hv.symm))
  · split at h
    · exact Or.inl (by injection h with hv; exact hv.symm)
    · split at h
      · exact Or.inr (Or.inl (by injection h with hv; exact hv.symm))
      · exact absurd h (by simp)

/-- Claim C2 (amended): provided the supplied project name, entity name
and the derived lowercase entity name contain no opening brace, every
catalog template renders successfully under both format calls of the
program, with every placeholder replaced and no brace-delimited
placeholder token remaining in the output. -/
theorem c2_render_no_placeholder (e n : String)
    (he : ∀ c ∈ e.data, c ≠ lbrace)
    (hel : ∀ c ∈ (pyLower e).data, c ≠ lbrace)
    (hn : ∀ c ∈ n.data, c ≠ lbrace) :
    ∀ tname tmpl, (tname, tmpl) ∈ TEMPLATES →
      ∀ ctx, (ctx = ctxGenerate e n ∨ ctx = ctxRoot e n) →
        renderNoPH tmpl ctx = true := by
  intro tname tmpl hmem ctx hctx
  have hvals : ctxValuesNoLB ctx := by
    intro nm v hlk c hc
    have hv : v = e ∨ v = pyLower e ∨ v = n := by
      rcases hctx with h | h
      · exact ctxGenerate_values (h ▸ hlk)
      · exact ctxRoot_values (h ▸ hlk)
    rcases hv with h | h | h
    · exact he c (h ▸ hc)
    · exact hel c (h ▸ hc)
    · exact hn c (h ▸ hc)
  have hmem2 : tmpl = entityTemplate ∨ tmpl = repositoryTemplate
      ∨ tmpl = pyprojectTemplate ∨ tmpl = readmeTemplate := by
    have h2 : (tname, tmpl) = (("entity_template.py"), entityTemplate)
        ∨ (tname, tmpl) = (("repository_interface_template.py"), repositoryTemplate)
        ∨ (tname, tmpl) = (("pyproject.toml"), pyprojectTemplate)
        ∨ (tname, tmpl) = (("README.md"), readmeTemplate) := by
      simpa [TEMPLATES] using hmem
    rcases h2 with h | h | h | h
    · exact Or.inl (by injection h)
    · exact Or.inr (Or.inl (by injection h))
    · exact Or.inr (Or.inr (Or.inl (by injection h)))
    · exact Or.inr (Or.inr (Or.inr (by injection h)))
  have hsafe : tmplSafe tmpl = true := by
    rcases hmem2 with h | h | h | h <;> rw [h]
    · exact tmplSafe_entity
    · exact tmplSafe_repository
    · exact tmplSafe_pyproject
    · exact tmplSafe_readme
  have hsome : (pyFormat tmpl ctx).isSome = true := by
    rcases hctx with hcx | hcx <;> rw [hcx] <;> rcases hmem2 with h | h | h | h <;> rw [h]
    · exact pyFormat_isSome_entity_gen e n
    · exact pyFormat_isSome_repository_gen e n
    · exact pyFormat_isSome_pyproject_gen e n
    · exact pyFormat_isSome_readme_gen e n
    · exact pyFormat_isSome_entity_root e n
    · exact pyFormat_isSome_repository_root e n
    · exact pyFormat_isSome_pyproject_root e n
    · exact pyFormat_isSome_readme_root e n
  obtain ⟨out, hout⟩ := Option.isSome_iff_exists.mp hsome
  have hnoph : hasPH out.data = false := by
    unfold pyFormat at hout
    cases hps : parseFmt tmpl.data with
    | none => rw [hps] at hout; exact absurd hout (by simp)
    | some ps =>
      rw [hps] at hout
      have hout2 : (renderPieces ctx ps).map String.mk = some out := hout
      rcases Option.map_eq_some'.mp hout2 with ⟨l, hl, hlout⟩
      have hsafe2 : pieceListSafe ps = true := by
        unfold tmplSafe at hsafe
        rw [hps] at hsafe
        exact hsafe
      have hres := renderPieces_noPH hvals ps hsafe2 l hl
      rw [← hlout]
      exact hres
  have hfinal : renderNoPH tmpl ctx = !(hasPH out.data) := by
    unfold renderNoPH
    rw [hout]
  rw [hfinal, hnoph]
  rfl

/-- Witness for C2 (amended) at the entity template with brace-free
values. -/
theorem c2_render_no_placeholder_witness :
    renderNoPH entityTemplate (ctxGenerate ("Order") ("shop")) = true :=
  c2_render_no_placeholder ("Order") ("shop") (by decide) (by decide) (by decide)
    ("entity_template.py") entityTemplate (by decide)
    (ctxGenerate ("Order") ("shop")) (Or.inl rfl)

/-- Content of the file at a path, when it is a file. -/
def fileContent (fs : FS) (p : Path) : Option String :=
  match fs p with
  | some (FsEntry.fileE c) => some c
  | _ => none

/-- Substring test on character lists. -/
def hasSubstr (pat : List Char) : List Char → Bool
  | [] => pat.isEmpty
  | c :: rest => pat.isPrefixOf (c :: rest) || hasSubstr pat rest

/-- Substring test on an optional file content. -/
def optContains (o : Option String) (pat : String) : Bool :=
  match o with
  | some s => hasSubstr pat.data s.data
  | none => false

/-- Claim C7: running the generator as `shop` / `Order` on an empty disk
produces templates/entity_template.py defining `Order`,
templates/repository_interface_template.py defining `OrderRepository`,
and a pyproject.toml naming the project `shop`. -/
theorem c7_shop_order :
    optContains (fileContent ((pyMain [("prog"), ("shop"), ("Order")] emptyFS).2)
        [("shop"), ("templates"), ("entity_template.py")]) ("class Order:") = true
    ∧ optContains (fileContent ((pyMain [("prog"), ("shop"), ("Order")] emptyFS).2)
        [("shop"), ("templates"), ("repository_interface_template.py")])
        ("class OrderRepository(ABC):") = true
    ∧ optContains (fileContent ((pyMain [("prog"), ("shop"), ("Order")] emptyFS).2)
        [("shop"), ("pyproject.toml")]) ("name = \"shop\"") = true := by
  decide

/-- Two paths hold files with identical content. -/
def sameFileContent (fs : FS) (p q : Path) : Bool :=
  match fs p, fs q with
  | some (FsEntry.fileE c), some (FsEntry.fileE c2) => c == c2
  | _, _ => false

/-- Claim C9: on any successful run, the pyproject.toml written at the
project root is identical to templates/pyproject.toml, and README.md at
the root is identical to templates/README.md: both are rendered from the
same catalog entry with the same three substitution values. -/
theorem c9_root_files_match (prog n e : String) (fs fs2 : FS)
    (h : pyMain [prog, n, e] fs = (0, fs2)) :
    sameFileContent fs2 ([n] ++ [("pyproject.toml")])
        ([n] ++ [("templates"), ("pyproject.toml")]) = true
      ∧ sameFileContent fs2 ([n] ++ [("README.md")])
        ([n] ++ [("templates"), ("README.md")]) = true := by
  have hm0 : pyMain [prog, n, e] fs
      = if pathExists fs [n] then (1, fs)
        else
          match mkdirSimple [n] fs with
          | .error fsE => (1, fsE)
          | .ok fsx =>
            match tryBlock [n] e n fsx with
            | .ok fsy => (0, fsy)
            | .error fsE =>
              (1, if pathExists fsE [n] then rmtree [n] fsE else fsE) := rfl
  rw [hm0] at h
  by_cases hex : pathExists fs [n] = true
  · rw [if_pos (by simp [hex])] at h
    exact absurd (congrArg Prod.fst h) (by simp)
  · rw [if_neg (by simp [hex])] at h
    cases hmk : mkdirSimple [n] fs with
    | error fsE =>
      rw [hmk] at h
      exact absurd (congrArg Prod.fst h) (by simp)
    | ok fs₁ =>
      rw [hmk] at h
      have h2 : (match tryBlock [n] e n fs₁ with
          | Except.ok fsy => ((0 : Nat), fsy)
          | Except.error fsE =>
            (1, if pathExists fsE [n] then rmtree [n] fsE else fsE)) = (0, fs2) := h
      cases htb : tryBlock [n] e n fs₁ with
      | error fsE =>
        rw [htb] at h2
        exact absurd (congrArg Prod.fst h2) (by simp)
      | ok fsy =>
        rw [htb] at h2
        have hfs2 : fsy = fs2 := congrArg Prod.snd h2
        subst hfs2
        -- invert the try block
        have ht0 : tryBlock [n] e n fs₁
            = match create_directory_structure [n] PROJECT_STRUCTURE fs₁ with
              | .error fsE => .error fsE
              | .ok fsa =>
                match generate_template_files [n] e n fsa with
                | .error fsE => .error fsE
                | .ok fsb =>
                  writeRootFiles [n] (ctxRoot e n)
                    [("pyproject.toml"), ("README.md")] fsb := rfl
        rw [ht0] at htb
        cases hcr : create_directory_structure [n] PROJECT_STRUCTURE fs₁ with
        | error fsE => rw [hcr] at htb; exact absurd htb (by simp)
        | ok fsa =>
          rw [hcr] at htb
          have htb2 : (match generate_template_files [n] e n fsa with
              | Except.error fsE => (Except.error fsE : Except FS FS)
              | Except.ok fsb =>
                writeRootFiles [n] (ctxRoot e n)
                  [("pyproject.toml"), ("README.md")] fsb) = .ok fsy := htb
          cases hgen : generate_template_files [n] e n fsa with
          | error fsE => rw [hgen] at htb2; exact absurd htb2 (by simp)
          | ok fsb =>
            rw [hgen] at htb2
            have hroots : writeRootFiles [n] (ctxRoot e n)
                [("pyproject.toml"), ("README.md")] fsb = .ok fsy := htb2
            -- invert generate
            have hg0 : generate_template_files [n] e n fsa
                = match mkdirExistOk ([n] ++ [("templates")]) fsa with
                  | .error fsE => .error fsE
                  | .ok fs₂ =>
                    writeTemplates ([n] ++ [("templates")]) (ctxGenerate e n)
                      TEMPLATES fs₂ := rfl
            rw [hg0] at hgen
            cases hmke : mkdirExistOk ([n] ++ [("templates")]) fsa with
            | error fsE => rw [hmke] at hgen; exact absurd hgen (by simp)
            | ok fsm =>
              rw [hmke] at hgen
              have hwt : writeTemplates ([n] ++ [("templates")]) (ctxGenerate e n)
                  TEMPLATES fsm = .ok fsb := hgen
              -- contents written under templates/
              have hmempy : (("pyproject.toml"), pyprojectTemplate) ∈ TEMPLATES :=
                List.mem_cons.mpr (Or.inr (List.mem_cons.mpr (Or.inr
                  (List.mem_cons_self _ _))))
              have hmemrm : (("README.md"), readmeTemplate) ∈ TEMPLATES :=
                List.mem_cons.mpr (Or.inr (List.mem_cons.mpr (Or.inr
                  (List.mem_cons.mpr (Or.inr (List.mem_cons_self _ _))))))
              have hlkpy := writeTemplates_ok_lookup ([n] ++ [("templates")])
                (ctxGenerate e n) TEMPLATES fsm fsb (by decide) hwt
                ("pyproject.toml") pyprojectTemplate hmempy
              have hlkrm := writeTemplates_ok_lookup ([n] ++ [("templates")])
                (ctxGenerate e n) TEMPLATES fsm fsb (by decide) hwt
                ("README.md") readmeTemplate hmemrm
              rcases hlkpy with ⟨cg1, hcg1, hfsb1⟩
              rcases hlkrm with ⟨cg2, hcg2, hfsb2⟩
              -- contents written at the root
              have hlkroot := writeRootFiles_ok_lookup [n] (ctxRoot e n)
                [("pyproject.toml"), ("README.md")] fsb fsy (by decide) hroots
              rcases hlkroot ("pyproject.toml") (by decide) with
                ⟨t1, cr1, hlt1, hcr1, hfsy1⟩
              rcases hlkroot ("README.md") (by decide) with
                ⟨t2, cr2, hlt2, hcr2, hfsy2⟩
              have ht1e : t1 = pyprojectTemplate := by
                have h3 : (some t1 : Option String) = some pyprojectTemplate :=
                  hlt1.symm.trans (by rfl)
                injection h3
              have ht2e : t2 = readmeTemplate := by
                have h3 : (some t2 : Option String) = some readmeTemplate :=
                  hlt2.symm.trans (by rfl)
                injection h3
              subst ht1e ht2e
              -- same rendered content under both contexts
              have heq1 : cg1 = cr1 := by
                have h3 := (pyFormat_gen_eq_root pyprojectTemplate e n).symm.trans hcg1
                have h4 := hcr1.symm.trans h3
                exact (Option.some.inj h4).symm
              have heq2 : cg2 = cr2 := by
                have h3 := (pyFormat_gen_eq_root readmeTemplate e n).symm.trans hcg2
                have h4 := hcr2.symm.trans h3
                exact (Option.some.inj h4).symm
              -- the templates/ copies survive the root-file loop
              have hfr1 : fsy (([n] ++ [("templates")]) ++ [("pyproject.toml")])
                  = fsb (([n] ++ [("templates")]) ++ [("pyproject.toml")]) := by
                have hfr := writeRootFiles_frame [n] (ctxRoot e n)
                  [("pyproject.toml"), ("README.md")] fsb
                  (([n] ++ [("templates")]) ++ [("pyproject.toml")])
                  (by
                    intro nm hnm
                    apply ne_of_length_ne
                    simp)
                rw [hroots] at hfr
                exact hfr
              have hfr2 : fsy (([n] ++ [("templates")]) ++ [("README.md")])
                  = fsb (([n] ++ [("templates")]) ++ [("README.md")]) := by
                have hfr := writeRootFiles_frame [n] (ctxRoot e n)
                  [("pyproject.toml"), ("README.md")] fsb
                  (([n] ++ [("templates")]) ++ [("README.md")])
                  (by
                    intro nm hnm
                    apply ne_of_length_ne
                    simp)
                rw [hroots] at hfr
                exact hfr
              have hp1 : ([n] ++ [("templates"), ("pyproject.toml")] : Path)
                  = ([n] ++ [("templates")]) ++ [("pyproject.toml")] := by simp
              have hp2 : ([n] ++ [("templates"), ("README.md")] : Path)
                  = ([n] ++ [("templates")]) ++ [("README.md")] := by simp
              constructor
              · rw [show sameFileContent fsy ([n] ++ [("pyproject.toml")])
                    ([n] ++ [("templates"), ("pyproject.toml")])
                  = (match fsy ([n] ++ [("pyproject.toml")]),
                       fsy ([n] ++ [("templates"), ("pyproject.toml")]) with
                     | some (FsEntry.fileE c), some (FsEntry.fileE c2) => c == c2
                     | _, _ => false) from rfl]
                rw [hfsy1, hp1, hfr1, hfsb1, heq1]
                simp
              · rw [show sameFileContent fsy ([n] ++ [("README.md")])
                    ([n] ++ [("templates"), ("README.md")])
                  = (match fsy ([n] ++ [("README.md")]),
                       fsy ([n] ++ [("templates"), ("README.md")]) with
                     | some (FsEntry.fileE c), some (FsEntry.fileE c2) => c == c2
                     | _, _ => false) from rfl]
                rw [hfsy2, hp2, hfr2, hfsb2, heq2]
                simp

/-- Witness for C9 at a concrete successful run. -/
theorem c9_root_files_match_witness :
    sameFileContent ((pyMain [("x"), ("shop"), ("Order")] emptyFS).2)
        ([("shop")] ++ [("pyproject.toml")])
        ([("shop")] ++ [("templates"), ("pyproject.toml")]) = true
      ∧ sameFileContent ((pyMain [("x"), ("shop"), ("Order")] emptyFS).2)
        ([("shop")] ++ [("README.md")])
        ([("shop")] ++ [("templates"), ("README.md")]) = true :=
  c9_root_files_match ("x") ("shop") ("Order") emptyFS
    ((pyMain [("x"), ("shop"), ("Order")] emptyFS).2) (by rfl)

end DDDGen
